import Mathlib

/-!
Verification development for the problem module of the picoCTF web API
(src/picoCTF-web/api/problem.py).

The module is embedded shallowly: the mongo collections (problems, bundles,
teams, submissions) become lists inside a `DB` record, every state-changing
function takes the `DB` and returns it (wrapped in `Except ApiError` because
the source raises exceptions), and the `randint` call of instance assignment
draws from an explicit stream of naturals carried in the state.  Unbounded
recursion in the source (`get_instance_data`) is embedded with an explicit
fuel argument; exhausting the fuel yields the dedicated `ApiError.outOfFuel`
marker, which stands for the recursion not terminating and corresponds to no
exception of the source.
-/

deriving instance DecidableEq for Except

namespace PicoCTF

/-- Errors raised by the source module.  `internal` is `InternalException`,
`severeInternal` is `SevereInternalException`, `web` is `WebException`,
`validation` is a schema-validation failure, `typeError` is a built-in Python
error (raised, e.g., by `dict.update` on a non-mapping), and `outOfFuel` is
the fuel-exhaustion marker of the embedding (it models divergence, not an
exception of the source). -/
inductive ApiError where
  | internal (msg : String)
  | severeInternal (msg : String)
  | web (msg : String)
  | validation (msg : String)
  | typeError (msg : String)
  | outOfFuel
  deriving DecidableEq, Repr

/-- A dynamically typed value, used where the source lets an `int` flow into a
slot that normally holds a string (the return value of
`assign_instance_to_team` is the integer `instance_number`, and
`get_instance_data` compares it against string instance ids).  In Python,
`str == int` is `False`. -/
inductive PyVal where
  | int (n : Nat)
  | str (s : String)
  deriving DecidableEq, Repr

/-- Python equality of a string against a dynamic value. -/
def pyEqStr (s : String) (v : PyVal) : Bool :=
  match v with
  | .int _ => false
  | .str t => s == t

/-- A problem instance.  Only the fields the module reads are kept: `iid`,
`flag`, and the optional `server_number` used by sharding. -/
structure Instance where
  iid : String
  flag : String
  server_number : Option Nat
  deriving DecidableEq, Repr

/-- A problem document.  Fields not read by the embedded functions
(description, hints, tags, author, ...) are omitted. -/
structure Problem where
  pid : String
  name : String
  sanitized_name : String
  category : String
  score : Nat
  disabled : Bool
  instances : List Instance
  deriving DecidableEq, Repr

/-- A dependency rule of a bundle: a weight per sanitized problem name and a
threshold the weighted sum of solved problems must reach. -/
structure DependencyRule where
  weightmap : List (String × Int)
  threshold : Int
  deriving DecidableEq, Repr

/-- A bundle document.  `dependencies` is optional because the source guards
its use with a key-membership test. -/
structure Bundle where
  bid : String
  name : String
  author : String
  problems : List String
  dependencies : Option (List (String × DependencyRule))
  dependencies_enabled : Bool
  deriving DecidableEq, Repr

/-- A team document: `members` are the uids returned by
`api.team.get_team_uids`, `server_number` is the sharding affinity
(`team.get` defaults it to 1 when absent), `instances` is the committed
pid-to-iid mapping. -/
structure Team where
  tid : String
  members : List String
  server_number : Option Nat
  instances : List (String × String)
  deriving DecidableEq, Repr

/-- A submission ledger entry, with exactly the fields `submit_key` inserts. -/
structure Submission where
  uid : String
  tid : String
  pid : String
  key : String
  method : String
  ip : Option String
  category : String
  correct : Bool
  timestamp : Nat
  deriving DecidableEq, Repr

/-- The configuration surface the module consumes
(`api.config.get_settings()["shell_servers"]["enable_sharding"]`). -/
structure Settings where
  enable_sharding : Bool
  deriving DecidableEq, Repr

/-- The full mutable state: the four mongo collections, the set of known
uids, the settings, the module-level `DEBUG_KEY`, the stream of random
naturals consumed by `randint`, and a clock supplying timestamps. -/
structure DB where
  problems : List Problem
  bundles : List Bundle
  teams : List Team
  submissions : List Submission
  users : List String
  settings : Settings
  debug_key : Option String
  rng : List Nat
  clock : Nat
  deriving DecidableEq, Repr

/-- Python dict assignment on an association list: overwrite in place when the
key is present (keeping its position), append otherwise. -/
def setAssoc (l : List (String × String)) (k v : String) : List (String × String) :=
  if (l.lookup k).isSome then
    l.map (fun p => match p.1 == k with | true => (k, v) | false => p)
  else
    l ++ [(k, v)]

/-- Model of `api.team.get_team(tid=...)`: fails when the team is unknown. -/
def get_team (db : DB) (tid : String) : Except ApiError Team :=
  match db.teams.find? (fun t => t.tid == tid) with
  | some t => .ok t
  | none => .error (.internal "team not found")

/-- Lookup of a problem document by pid in a problem list. -/
def findProblem (problems : List Problem) (pid : String) : Option Problem :=
  problems.find? (fun p => p.pid == pid)

/-- Model of `get_problem(pid=...)`: raises `SevereInternalException` when absent. -/
def get_problem (db : DB) (pid : String) : Except ApiError Problem :=
  match findProblem db.problems pid with
  | some p => .ok p
  | none => .error (.severeInternal "could not find problem")

/-- The committed iid of a team for a problem, if any: reads the team
document and its `instances` mapping. -/
def committedIid (db : DB) (tid pid : String) : Option String :=
  match get_team db tid with
  | .ok t => t.instances.lookup pid
  | .error _ => none

/-- The submission filter of `get_submissions` and `count_submissions`: `uid`
takes precedence over `tid`; `pid`, `category` and `correctness` are
conjunctive filters. -/
def subMatch (pid uid tid category : Option String) (correctness : Option Bool)
    (s : Submission) : Bool :=
  (match uid with
   | some u => s.uid == u
   | none =>
     match tid with
     | some t => s.tid == t
     | none => true) &&
  (match pid with | some x => s.pid == x | none => true) &&
  (match category with | some c => s.category == c | none => true) &&
  (match correctness with | some b => s.correct == b | none => true)

/-- Model of `get_submissions` on an explicit ledger. -/
def filterSubs (subs : List Submission) (pid uid tid category : Option String)
    (correctness : Option Bool) : List Submission :=
  subs.filter (subMatch pid uid tid category correctness)

/-- Model of `get_submissions`, reading the ledger from the state. -/
def get_submissions (db : DB) (pid uid tid category : Option String)
    (correctness : Option Bool) : List Submission :=
  filterSubs db.submissions pid uid tid category correctness

/-- Comparison used by the mongo sort of `get_all_problems`:
ascending score, then ascending name. -/
def problemLE (p q : Problem) : Bool :=
  decide (p.score < q.score) || (p.score == q.score && decide (p.name ≤ q.name))

/-- Insertion into a list sorted by `problemLE`. -/
def insertSorted (p : Problem) : List Problem → List Problem
  | [] => [p]
  | q :: rest => if problemLE p q then p :: q :: rest else q :: insertSorted p rest

/-- The mongo sort of `get_all_problems`, modelled as an insertion sort. -/
def sortProblems (l : List Problem) : List Problem :=
  l.foldr insertSorted []

/-- Whether a problem passes the optional category filter. -/
def catMatch (category : Option String) (p : Problem) : Bool :=
  match category with
  | some c => p.category == c
  | none => true

/-- The match stage of `get_all_problems`. -/
def filterProblems (problems : List Problem) (category : Option String)
    (show_disabled : Bool) : List Problem :=
  problems.filter (fun p => catMatch category p && (show_disabled || !p.disabled))

/-- Model of `get_all_problems`: category and disabled filtering, then the sort by
(score, name).  The `basic_only` projection is not modelled (it only trims
fields). -/
def get_all_problems (db : DB) (category : Option String) (show_disabled : Bool) :
    List Problem :=
  sortProblems (filterProblems db.problems category show_disabled)

/-- The weighted sum of `is_problem_unlocked`:
`sum(dependency["weightmap"].get(p["sanitized_name"], 0) for p in solved)`. -/
def weightsum (weightmap : List (String × Int)) (solved : List Problem) : Int :=
  (solved.map (fun p => (weightmap.lookup p.sanitized_name).getD 0)).sum

/-- The dependency rule a bundle defines for a sanitized problem name, if the
bundle has a `dependencies` key at all. -/
def depRuleFor (b : Bundle) (name : String) : Option DependencyRule :=
  match b.dependencies with
  | some deps => deps.lookup name
  | none => none

/-- The body of the bundle loop of `is_problem_unlocked`: `true` when this
bundle clears the `unlocked` flag for this problem. -/
def bundleLocksProblem (b : Bundle) (p : Problem) (solved : List Problem) : Bool :=
  if p.sanitized_name ∈ b.problems then
    if b.dependencies.isSome && b.dependencies_enabled then
      match depRuleFor b p.sanitized_name with
      | some rule => decide (weightsum rule.weightmap solved < rule.threshold)
      | none => false
    else false
  else false

/-- Model of `is_problem_unlocked(problem, solved)`: starts with `unlocked = True` and
clears it for every bundle whose dependency rule for the problem is not
satisfied. -/
def is_problem_unlocked (db : DB) (p : Problem) (solved : List Problem) : Bool :=
  db.bundles.foldl (fun unlocked b => if bundleLocksProblem b p solved then false else unlocked) true

/-- The deduplication loop of `get_solved_problems`: walk the submissions in
order, record each pid once, look the problem up (a missing problem is a
`SevereInternalException`), and keep it unless it is disabled (and disabled
problems are hidden).  The key-trimming of `unlocked_filter` and the added
`solve_time` only touch fields outside this embedding. -/
def solvedLoop (problems : List Problem) (show_disabled : Bool) :
    List Submission → List String → List Problem → Except ApiError (List Problem)
  | [], _, result => .ok result
  | s :: rest, pids, result =>
    if s.pid ∈ pids then solvedLoop problems show_disabled rest pids result
    else
      match findProblem problems s.pid with
      | none => .error (.severeInternal "could not find problem")
      | some p =>
        if !p.disabled || show_disabled then
          solvedLoop problems show_disabled rest (pids ++ [s.pid]) (result ++ [p])
        else
          solvedLoop problems show_disabled rest (pids ++ [s.pid]) result

/-- The body of `get_solved_problems` once the team document is resolved:
the correct submissions of the team, then those of every member, deduplicated
by pid. -/
def solvedCore (subs : List Submission) (problems : List Problem) (tid : String)
    (members : List String) (category : Option String) (show_disabled : Bool) :
    Except ApiError (List Problem) :=
  let base := filterSubs subs none none (some tid) category (some true)
  let all := members.foldl
    (fun acc u => acc ++ filterSubs subs none (some u) none category (some true)) base
  solvedLoop problems show_disabled all [] []

/-- Model of `get_solved_problems(tid=..., category=...)` (the `tid` is always supplied
by the callers modelled here). -/
def get_solved_problems (db : DB) (tid : String) (category : Option String)
    (show_disabled : Bool) : Except ApiError (List Problem) :=
  match get_team db tid with
  | .error e => .error e
  | .ok team => solvedCore db.submissions db.problems tid team.members category show_disabled

/-- A junk instance for the out-of-range default of `List.getD`; instance
selection always indexes below the length, so it is never produced. -/
def defaultInstance : Instance := { iid := "", flag := "", server_number := none }

/-- The candidate instances of `assign_instance_to_team`: all instances of
the problem, or only those on the shard of the team when sharding is enabled
(the team shard defaults to 1 when unset, and an instance without a shard
matches nothing). -/
def availableInstances (problem : Problem) (team : Team) (settings : Settings) :
    List Instance :=
  if settings.enable_sharding then
    problem.instances.filter
      (fun i => i.server_number == some (team.server_number.getD 1))
  else problem.instances

/-- The team-collection write of `assign_instance_to_team`: store pid to iid
in the instance mapping of the team carrying the tid. -/
def commitTeams (tid pid iid : String) (teams : List Team) : List Team :=
  teams.map (fun t =>
    if t.tid == tid then { t with instances := setAssoc t.instances pid iid } else t)

/-- Model of `assign_instance_to_team(pid, tid, reassign)`.  `randint(0, len - 1)` is
modelled by consuming the head of the rng stream modulo the number of
candidates.  Note the source returns `instance_number`, the index into the
candidate list, while committing `iid` to the team document. -/
def assign_instance_to_team (pid tid : String) (reassign : Bool) (db : DB) :
    Except ApiError (Nat × DB) :=
  match get_team db tid with
  | .error e => .error e
  | .ok team =>
    match get_problem db pid with
    | .error e => .error e
    | .ok problem =>
      let available := availableInstances problem team db.settings
      if (team.instances.lookup pid).isSome && !reassign then
        .error (.internal "team already has an instance of this problem")
      else if available.length == 0 then
        if db.settings.enable_sharding then
          .error (.internal "your assigned shell server is currently down")
        else
          .error (.internal "problem has no instances to assign")
      else
        let instance_number := db.rng.headD 0 % available.length
        let iid := (available.getD instance_number defaultInstance).iid
        .ok (instance_number,
          { db with
            rng := db.rng.tail,
            teams := commitTeams tid pid iid db.teams })

/-- The assignment loop at the end of `get_unlocked_pids`: `team` is the
document snapshot fetched before the loop, so the guard consults the snapshot
while each assignment rereads and rewrites the live state. -/
def assignLoop (tid : String) (snapshot : Team) :
    List String → DB → Except ApiError DB
  | [], db => .ok db
  | pid :: rest, db =>
    if (snapshot.instances.lookup pid).isSome then assignLoop tid snapshot rest db
    else
      match assign_instance_to_team pid tid false db with
      | .error e => .error e
      | .ok (_, db1) => assignLoop tid snapshot rest db1

/-- The unlocked list built by the loop of `get_unlocked_pids`: the pids of
the category-filtered enabled problems passing `is_problem_unlocked` against
the given solved set. -/
def unlockedList (db : DB) (category : Option String) (solved : List Problem) :
    List String :=
  ((get_all_problems db category false).filter
    (fun p => is_problem_unlocked db p solved)).map (fun p => p.pid)

/-- Model of `get_unlocked_pids(tid, category)`: the solved set is computed with
`category=None` (the source comment says: do NOT limit solved problems to
category for proper weight count), the unlocked list is the category-filtered
enabled problems passing `is_problem_unlocked`, and every unlocked pid absent
from the team snapshot gets an instance assigned. -/
def get_unlocked_pids (tid : String) (category : Option String) (db : DB) :
    Except ApiError (List String × DB) :=
  match get_solved_problems db tid none false with
  | .error e => .error e
  | .ok solved =>
    match get_team db tid with
    | .error e => .error e
    | .ok team =>
      match assignLoop tid team (unlockedList db category solved) db with
      | .error e => .error e
      | .ok db1 => .ok (unlockedList db category solved, db1)

/-- One iteration of `get_instance_data(pid, tid)`, with the trailing
recursive call abstracted as `recur`.  When the team has no committed
instance the return value of `assign_instance_to_team` is used as the
looked-up iid: it is the integer `instance_number`, so the string comparison
against each `instance["iid"]` never succeeds and the function falls through
to the reassign-and-recurse path. -/
def gidStep (pid tid : String) (recur : DB → Except ApiError (Instance × DB))
    (db : DB) : Except ApiError (Instance × DB) :=
  match get_team db tid with
  | .error e => .error e
  | .ok team =>
    match get_problem db pid with
    | .error e => .error e
    | .ok problem =>
      let step : Except ApiError (PyVal × DB) :=
        match team.instances.lookup pid with
        | some s => .ok (.str s, db)
        | none =>
          match assign_instance_to_team pid tid false db with
          | .error e => .error e
          | .ok (k, db1) => .ok (.int k, db1)
      match step with
      | .error e => .error e
      | .ok (iid, db1) =>
        match problem.instances.find? (fun i => pyEqStr i.iid iid) with
        | some inst => .ok (inst, db1)
        | none =>
          match assign_instance_to_team pid tid true db1 with
          | .error e => .error e
          | .ok (_, db2) => recur db2

/-- Model of `get_instance_data(pid, tid)` with explicit fuel standing for the
recursion depth of the source (which recurses unconditionally after a failed
lookup plus reassignment). -/
def get_instance_data (fuel : Nat) (pid tid : String) (db : DB) :
    Except ApiError (Instance × DB) :=
  match fuel with
  | 0 => .error .outOfFuel
  | fuel + 1 => gidStep pid tid (fun db2 => get_instance_data fuel pid tid db2) db

/-- Python substring containment (`needle in haystack`) on character lists:
the needle is a prefix of some suffix of the haystack. -/
def infixOfList (needle : List Char) : List Char → Bool
  | [] => needle.isEmpty
  | c :: rest => needle.isPrefixOf (c :: rest) || infixOfList needle rest

/-- The substring grading step of `grade_problem`, including the debug
override: `correct = instance["flag"] in key`, and when incorrect and
`DEBUG_KEY` is set, `correct = DEBUG_KEY in key`. -/
def gradeKey (debug_key : Option String) (flag key : String) : Bool :=
  let correct := infixOfList flag.data key.data
  if !correct then
    match debug_key with
    | some dk => infixOfList dk.data key.data
    | none => correct
  else correct

/-- Model of `grade_problem(pid, key, tid)` (the `tid` is always supplied by the
callers modelled here). -/
def grade_problem (fuel : Nat) (pid key tid : String) (db : DB) :
    Except ApiError (Bool × DB) :=
  match get_instance_data fuel pid tid db with
  | .error e => .error e
  | .ok (inst, db1) => .ok (gradeKey db.debug_key inst.flag key, db1)

/-- Model of `submit_key(tid, pid, key, method, uid, ip)`.  The cache invalidations and
the achievement hook fired on a first correct submission act on collaborators
outside this state and are therefore not modelled.  The returned triple is
`(correct, previously_solved_by_user, previously_solved_by_team)`. -/
def submit_key (fuel : Nat) (tid pid key method uid : String) (ip : Option String)
    (db : DB) : Except ApiError ((Bool × Bool × Bool) × DB) :=
  if tid.length > 100 || pid.length > 100 || key.length > 100 then
    .error (.validation "this does not look like a valid submission")
  else
    match get_unlocked_pids tid none db with
    | .error e => .error e
    | .ok (unlocked, db1) =>
      if pid ∈ unlocked then
        if db1.users.contains uid then
          let previously_solved_by_user :=
            db1.submissions.any (fun s => s.uid == uid && s.correct)
          let previously_solved_by_team :=
            db1.submissions.any (fun s => s.tid == tid && s.correct)
          match grade_problem fuel pid key tid db1 with
          | .error e => .error e
          | .ok (correct, db2) =>
            if previously_solved_by_user then
              .ok ((correct, previously_solved_by_user, previously_solved_by_team), db2)
            else
              match get_problem db2 pid with
              | .error e => .error e
              | .ok problem =>
                .ok ((correct, previously_solved_by_user, previously_solved_by_team),
                  { db2 with
                    submissions := db2.submissions ++
                      [{ uid := uid, tid := tid, pid := pid, key := key,
                         method := method, ip := ip, category := problem.category,
                         correct := correct, timestamp := db2.clock }],
                    clock := db2.clock + 1 })
        else .error (.internal "user submitting flag does not exist")
      else .error (.internal "you cannot submit flags to problems you have not unlocked")

/-- Model of `clear_submissions(uid, tid, pid)`.  The pid branch of the source executes
`match.update(\x7b"pid", pid\x7d)` - a set literal, not a dict - and iterating
that set hands `dict.update` the three-character string "pid", which cannot
unpack as a key-value pair, so Python raises before `db.submissions.remove` is
reached and the ledger is untouched. -/
def clear_submissions (uid tid pid : Option String) (db : DB) : Except ApiError DB :=
  match pid with
  | some _ => .error (.typeError "dictionary update sequence element is not a pair")
  | none =>
    match uid with
    | some u => .ok { db with submissions := db.submissions.filter (fun s => !(s.uid == u)) }
    | none =>
      match tid with
      | some t => .ok { db with submissions := db.submissions.filter (fun s => !(s.tid == t)) }
      | none => .error (.internal "you must supply either a tid, uid, or pid")

/-- One pass of the key-deduplication loop of
`reevaluate_submissions_for_problem`: for each submission whose key was not
seen yet, regrade the key for that submission team and record either the
changed verdict or `none`. -/
def reevalKeys (fuel : Nat) (pid : String) :
    List Submission → List (String × Option Bool) → DB →
    Except ApiError (List (String × Option Bool) × DB)
  | [], acc, db => .ok (acc, db)
  | s :: rest, acc, db =>
    if (acc.lookup s.key).isSome then reevalKeys fuel pid rest acc db
    else
      match grade_problem fuel pid s.key s.tid db with
      | .error e => .error e
      | .ok (result, db1) =>
        reevalKeys fuel pid rest
          (acc ++ [(s.key, if result != s.correct then some result else none)]) db1

/-- The bulk update phase of `reevaluate_submissions_for_problem`: for every
key with a changed verdict, update every ledger entry bearing that exact key
(across all pids - the mongo filter is on the key alone). -/
def applyKeyChanges (changes : List (String × Option Bool)) (subs : List Submission) :
    List Submission :=
  changes.foldl
    (fun acc change =>
      match change.2 with
      | some b => acc.map (fun s => if s.key == change.1 then { s with correct := b } else s)
      | none => acc)
    subs

/-- The per-submission effect of `applyKeyChanges`: fold the change list
over one ledger entry. -/
def applyChanges (changes : List (String × Option Bool)) (s : Submission) : Submission :=
  changes.foldl
    (fun s c =>
      match c.2 with
      | some b => if s.key == c.1 then { s with correct := b } else s
      | none => s)
    s

/-- Model of `reevaluate_submissions_for_problem(pid)`. -/
def reevaluate_submissions_for_problem (fuel : Nat) (pid : String) (db : DB) :
    Except ApiError DB :=
  match get_problem db pid with
  | .error e => .error e
  | .ok _ =>
    match reevalKeys fuel pid (get_submissions db (some pid) none none none none) [] db with
    | .error e => .error e
    | .ok (keys, db1) => .ok { db1 with submissions := applyKeyChanges keys db1.submissions }

/-- Deterministic stand-in for `api.common.hash`: the module only relies on
the digest being a pure function of its input, so the embedding tags the
input instead of digesting it. -/
def apiHash (s : String) : String :=
  String.append "digest-" s

/-- The payload accepted by `insert_bundle` / `update_bundle`: the optional
schema fields are `Option`-valued. -/
structure BundlePayload where
  name : String
  author : String
  problems : List String
  dependencies : Option (List (String × DependencyRule))
  dependencies_enabled : Option Bool
  deriving DecidableEq, Repr

/-- The `bundle.update(updates)` merge of `update_bundle`: required payload
fields overwrite, optional ones only when supplied; the bid is preserved. -/
def mergeBundle (b : Bundle) (u : BundlePayload) : Bundle :=
  { b with
    name := u.name,
    author := u.author,
    problems := u.problems,
    dependencies := match u.dependencies with | some d => some d | none => b.dependencies,
    dependencies_enabled :=
      match u.dependencies_enabled with | some e => e | none => b.dependencies_enabled }

/-- Model of `update_bundle(bid, updates)`: fails when the bundle is unknown,
otherwise writes the merged document back under the same bid. -/
def update_bundle (db : DB) (bid : String) (updates : BundlePayload) : Except ApiError DB :=
  match db.bundles.find? (fun b => b.bid == bid) with
  | none => .error (.web "bundle does not exist")
  | some _ =>
    .ok { db with bundles := db.bundles.map (fun b =>
      if b.bid == bid then mergeBundle b updates else b) }

/-- Model of `insert_bundle(bundle)`: derive the bid from (name, author); update in
place when it already exists, otherwise store the new bundle with
`dependencies_enabled` forced to `False` regardless of the payload. -/
def insert_bundle (db : DB) (payload : BundlePayload) : Except ApiError DB :=
  let bid := apiHash (payload.name ++ "-" ++ payload.author)
  match db.bundles.find? (fun b => b.bid == bid) with
  | some _ => update_bundle db bid payload
  | none =>
    .ok { db with bundles := db.bundles ++
      [{ bid := bid, name := payload.name, author := payload.author,
         problems := payload.problems, dependencies := payload.dependencies,
         dependencies_enabled := false }] }

/-- The write phase of `set_bundle_dependencies_enabled`: rewrite the flag of
the bundle carrying the bid. -/
def setEnabledBid (bid : String) (enabled : Bool) (bundles : List Bundle) : List Bundle :=
  bundles.map (fun b => if b.bid == bid then { b with dependencies_enabled := enabled } else b)

/-- Model of `set_bundle_dependencies_enabled(bid, enabled)`: an `update_bundle` with
only the flag in the updates dict (the cache clearing it triggers is outside
this state). -/
def set_bundle_dependencies_enabled (db : DB) (bid : String) (enabled : Bool) :
    Except ApiError DB :=
  match db.bundles.find? (fun b => b.bid == bid) with
  | none => .error (.web "bundle does not exist")
  | some _ => .ok { db with bundles := setEnabledBid bid enabled db.bundles }

/-- Discriminator for the fuel-exhaustion marker of `get_instance_data`:
true exactly when the embedded recursion ran out of fuel, i.e. when the
source would still be recursing. -/
def isOutOfFuel : Except ApiError (Instance × DB) → Bool
  | .error .outOfFuel => true
  | _ => false

/-- The fields of a team document that instance assignment never touches:
identity, membership and shard affinity. -/
def metaProj (t : Team) : String × List String × Option Nat :=
  (t.tid, t.members, t.server_number)

/-- Frame of the allocation side effects: assignment only rewrites team
instance mappings and consumes randomness, leaving every other collection,
the team identities, memberships and shard numbers unchanged. -/
structure AllocFrame (db db1 : DB) : Prop where
  problems_eq : db1.problems = db.problems
  bundles_eq : db1.bundles = db.bundles
  submissions_eq : db1.submissions = db.submissions
  users_eq : db1.users = db.users
  settings_eq : db1.settings = db.settings
  debug_eq : db1.debug_key = db.debug_key
  clock_eq : db1.clock = db.clock
  teams_meta : db1.teams.map metaProj = db.teams.map metaProj

/-- The instance `get_instance_data` resolves without any write: the team
document exists, has a committed iid for the pid, and that iid occurs in the
problem instance list. -/
def resolvedInstance (db : DB) (pid tid : String) : Option Instance :=
  match get_team db tid with
  | .error _ => none
  | .ok team =>
    match get_problem db pid with
    | .error _ => none
    | .ok problem =>
      match team.instances.lookup pid with
      | some iid => problem.instances.find? (fun i => pyEqStr i.iid (.str iid))
      | none => none

/-- Whether resolution for (pid, tid) is a pure read (see
`resolvedInstance`). -/
def committedResolution (db : DB) (pid tid : String) : Bool :=
  (resolvedInstance db pid tid).isSome

/-- The grading result of `grade_problem` when resolution is a pure read. -/
def pureGrade (db : DB) (pid tid key : String) : Bool :=
  match resolvedInstance db pid tid with
  | some inst => gradeKey db.debug_key inst.flag key
  | none => false

/-- The dictionary entry the reevaluation loop records for the first
submission bearing a key: the changed verdict, or `none` when the regrade
matches the stored correctness. -/
def mkChange (db : DB) (pid : String) (s : Submission) : Option Bool :=
  if pureGrade db pid s.tid s.key != s.correct then some (pureGrade db pid s.tid s.key)
  else none

/-- The key dictionary of `reevaluate_submissions_for_problem` when every
grade in the loop is a pure read (see `reevalKeys`). -/
def pureKeys (db : DB) (pid : String) :
    List Submission → List (String × Option Bool) → List (String × Option Bool)
  | [], acc => acc
  | s :: rest, acc =>
    if (acc.lookup s.key).isSome then pureKeys db pid rest acc
    else pureKeys db pid rest (acc ++ [(s.key, mkChange db pid s)])

/-- Test fixture: settings with sharding disabled. -/
def noSettings : Settings := { enable_sharding := false }

/-- Test fixture: a solved problem with sanitized name A. -/
def probA : Problem :=
  { pid := "pA", name := "A", sanitized_name := "A", category := "misc",
    score := 1, disabled := false, instances := [] }

/-- Test fixture: a solved problem with sanitized name B. -/
def probB : Problem :=
  { pid := "pB", name := "B", sanitized_name := "B", category := "misc",
    score := 2, disabled := false, instances := [] }

/-- Test fixture: the gated problem with sanitized name C. -/
def probC : Problem :=
  { pid := "pC", name := "C", sanitized_name := "C", category := "misc",
    score := 3, disabled := false, instances := [] }

/-- Test fixture: the dependency rule of the specification example,
weightmap A to 1 and B to 2 with threshold 2. -/
def exRule : DependencyRule := { weightmap := [("A", 1), ("B", 2)], threshold := 2 }

/-- Test fixture: a bundle holding A, B, C with the example rule on C. -/
def exBundle : Bundle :=
  { bid := "b1", name := "bundle", author := "a", problems := ["A", "B", "C"],
    dependencies := some [("C", exRule)], dependencies_enabled := true }

/-- Test fixture: a state whose only content is the example bundle. -/
def exDB1 : DB :=
  { problems := [], bundles := [exBundle], teams := [], submissions := [],
    users := [], settings := noSettings, debug_key := none, rng := [], clock := 0 }

/-- Test fixture: the committed instance of problem p1. -/
def i1 : Instance := { iid := "i1", flag := "F1", server_number := none }

/-- Test fixture: the committed instance of problem p2. -/
def i2 : Instance := { iid := "i2", flag := "G1", server_number := none }

/-- Test fixture: an enabled problem p1. -/
def p1 : Problem :=
  { pid := "p1", name := "one", sanitized_name := "one", category := "misc",
    score := 10, disabled := false, instances := [i1] }

/-- Test fixture: an enabled problem p2. -/
def p2 : Problem :=
  { pid := "p2", name := "two", sanitized_name := "two", category := "misc",
    score := 20, disabled := false, instances := [i2] }

/-- Test fixture: a team with committed instances for p1 and p2. -/
def t1 : Team :=
  { tid := "t1", members := [], server_number := none,
    instances := [("p1", "i1"), ("p2", "i2")] }

/-- Test fixture: a prior correct submission of the team for p2 by another
user. -/
def s0 : Submission :=
  { uid := "u2", tid := "t1", pid := "p2", key := "G1", method := "game",
    ip := none, category := "misc", correct := true, timestamp := 0 }

/-- Test fixture for the team-scoping counterexample: the team already has a
correct submission, but only for p2, and user u1 has none. -/
def db2c : DB :=
  { problems := [p1, p2], bundles := [], teams := [t1], submissions := [s0],
    users := ["u1", "u2"], settings := noSettings, debug_key := none,
    rng := [], clock := 1 }

/-- Test fixture: the submission recorded by the witness call on db2c. -/
def s0b : Submission :=
  { uid := "u1", tid := "t1", pid := "p1", key := "zzz", method := "game",
    ip := none, category := "misc", correct := false, timestamp := 1 }

/-- Test fixture: db2c after the witness submission was recorded. -/
def db2cPost : DB := { db2c with submissions := [s0, s0b], clock := 2 }

/-- Test fixture: first instance of the two-instance problem p4. -/
def x0 : Instance := { iid := "x0", flag := "FX", server_number := none }

/-- Test fixture: second instance of the two-instance problem p4. -/
def x1 : Instance := { iid := "x1", flag := "FY", server_number := none }

/-- Test fixture: a problem with two instances. -/
def p4 : Problem :=
  { pid := "p4", name := "four", sanitized_name := "four", category := "misc",
    score := 5, disabled := false, instances := [x0, x1] }

/-- Test fixture: a team without any committed instance. -/
def t4 : Team := { tid := "t4", members := [], server_number := none, instances := [] }

/-- Test fixture for the assignment return-value bug: the rng draws index 1. -/
def db4 : DB :=
  { problems := [p4], bundles := [], teams := [t4], submissions := [],
    users := [], settings := noSettings, debug_key := none, rng := [1], clock := 0 }

/-- Test fixture: as db4 but with two rng draws, 0 then 1, exercising the
fresh-assignment path of `get_instance_data`. -/
def db4b : DB := { db4 with rng := [0, 1] }

/-- Test fixture for unlocked-pid idempotence: the team already has its
committed instance, so `get_unlocked_pids` is a pure read. -/
def db6 : DB :=
  { problems := [p1], bundles := [], teams := [t1], submissions := [],
    users := [], settings := noSettings, debug_key := none, rng := [], clock := 0 }

/-- Test fixture: p1 in a distinct category. -/
def pf : Problem :=
  { pid := "p1", name := "one", sanitized_name := "one", category := "forensics",
    score := 10, disabled := false, instances := [i1] }

/-- Test fixture for category filtering: two categories, both committed. -/
def db7 : DB :=
  { problems := [pf, p2], bundles := [], teams := [t1], submissions := [],
    users := [], settings := noSettings, debug_key := none, rng := [], clock := 0 }

/-- Test fixture: a submission recorded correct against the old flag F1. -/
def s8 : Submission :=
  { uid := "u1", tid := "t1", pid := "p1", key := "F1-x", method := "game",
    ip := none, category := "misc", correct := true, timestamp := 0 }

/-- Test fixture: the p1 instance after the flag was changed to F2. -/
def iF : Instance := { iid := "i1", flag := "F2", server_number := none }

/-- Test fixture: p1 carrying the new flag F2. -/
def p8 : Problem :=
  { pid := "p1", name := "one", sanitized_name := "one", category := "misc",
    score := 10, disabled := false, instances := [iF] }

/-- Test fixture for the reevaluation round trip: one correct submission whose
key no longer contains the current flag. -/
def db8 : DB :=
  { problems := [p8], bundles := [], teams := [t1], submissions := [s8],
    users := ["u1"], settings := noSettings, debug_key := none, rng := [], clock := 1 }

/-- Test fixture: a bundle payload that tries to ship with dependencies
enabled. -/
def payload10 : BundlePayload :=
  { name := "b", author := "a", problems := ["A"], dependencies := none,
    dependencies_enabled := some true }

/-- Test fixture: the empty state. -/
def dbEmpty : DB :=
  { problems := [], bundles := [], teams := [], submissions := [],
    users := [], settings := noSettings, debug_key := none, rng := [], clock := 0 }

lemma find?_append_none {α : Type} (p : α → Bool) (l r : List α)
    (h : l.find? p = none) : (l ++ r).find? p = r.find? p := by
  induction l with
  | nil => rfl
  | cons a rest ih =>
    rw [List.find?_cons] at h
    cases hp : p a with
    | true => simp [hp] at h
    | false =>
      simp only [hp] at h
      simpa [List.find?_cons, hp] using ih h

lemma find?_map_pred {α : Type} (g : α → α) (p : α → Bool)
    (hg : ∀ a, p (g a) = p a) (l : List α) :
    (l.map g).find? p = (l.find? p).map g := by
  induction l with
  | nil => rfl
  | cons a rest ih =>
    simp only [List.map_cons, List.find?_cons, hg a]
    cases hp : p a with
    | true => rfl
    | false => exact ih

lemma foldl_lock (p : Problem) (solved : List Problem) (bs : List Bundle) (acc : Bool) :
    bs.foldl (fun unlocked b => if bundleLocksProblem b p solved then false else unlocked) acc =
      (acc && bs.all (fun b => !bundleLocksProblem b p solved)) := by
  induction bs generalizing acc with
  | nil => simp
  | cons b rest ih =>
    simp only [List.foldl_cons, List.all_cons, ih]
    cases h : bundleLocksProblem b p solved <;> cases acc <;> simp [h]

lemma bundleLocks_eq_false_iff (b : Bundle) (p : Problem) (solved : List Problem) :
    bundleLocksProblem b p solved = false ↔
      (p.sanitized_name ∈ b.problems → b.dependencies_enabled = true →
        ∀ rule, depRuleFor b p.sanitized_name = some rule →
          rule.threshold ≤ weightsum rule.weightmap solved) := by
  unfold bundleLocksProblem
  by_cases hmem : p.sanitized_name ∈ b.problems
  · simp only [hmem, if_true, forall_const]
    cases hdep : b.dependencies with
    | none => simp [depRuleFor, hdep]
    | some deps =>
      cases hen : b.dependencies_enabled with
      | false => simp [hen]
      | true =>
        simp only [hdep, Option.isSome_some, hen, Bool.and_self, if_true, true_implies]
        cases hrule : depRuleFor b p.sanitized_name with
        | none => simp [hrule]
        | some rule => simp [hrule, Int.not_lt]
  · simp [hmem]

/-- C1: a problem is unlocked iff, for every bundle that contains its
sanitized name, has dependencies enabled and defines a dependency rule for
it, the weighted sum of the solved set reaches the rule threshold; a problem
with no applicable rule is unlocked by default (the right side is then
vacuous), and the example rule weightmap A to 1, B to 2 with threshold 2
locks the problem for the empty solved set and for A alone and unlocks it
for B and for A with B. -/
theorem C1_is_problem_unlocked_iff :
    (∀ (db : DB) (p : Problem) (solved : List Problem),
        is_problem_unlocked db p solved = true ↔
          ∀ b ∈ db.bundles, p.sanitized_name ∈ b.problems →
            b.dependencies_enabled = true →
            ∀ rule, depRuleFor b p.sanitized_name = some rule →
              rule.threshold ≤ weightsum rule.weightmap solved) ∧
    is_problem_unlocked exDB1 probC [] = false ∧
    is_problem_unlocked exDB1 probC [probA] = false ∧
    is_problem_unlocked exDB1 probC [probB] = true ∧
    is_problem_unlocked exDB1 probC [probA, probB] = true := by
  refine ⟨fun db p solved => ?_, by decide, by decide, by decide, by decide⟩
  unfold is_problem_unlocked
  rw [foldl_lock]
  simp only [Bool.true_and, List.all_eq_true, Bool.not_eq_true']
  exact forall₂_congr (fun b _ => bundleLocks_eq_false_iff b p solved)

/-- C1 witness: the general equivalence evaluated at the example state. -/
theorem C1_is_problem_unlocked_iff_witness :
    is_problem_unlocked exDB1 probC [probB] = true ↔
      ∀ b ∈ exDB1.bundles, probC.sanitized_name ∈ b.problems →
        b.dependencies_enabled = true →
        ∀ rule, depRuleFor b probC.sanitized_name = some rule →
          rule.threshold ≤ weightsum rule.weightmap [probB] :=
  C1_is_problem_unlocked_iff.1 exDB1 probC [probB]

/-- C9: calling `clear_submissions` with a pid always fails before any
removal is issued (the source builds the mongo filter with a set literal,
which `dict.update` rejects), for every combination of uid and tid; the
error result carries no successor state, so the ledger is untouched. -/
theorem C9_clear_submissions_pid_always_errors
    (db : DB) (uid tid : Option String) (pid : String) :
    clear_submissions uid tid (some pid) db =
      .error (.typeError "dictionary update sequence element is not a pair") := rfl

/-- C4: on the failing input db4 (problem p4 with instances x0 and x1, team
t4 unassigned, random draw 1) `assign_instance_to_team` commits the iid x1 of
the chosen instance to the team mapping but returns the integer index 1, not
the iid its docstring promises; consequently, on db4b the fresh-assignment
path of `get_instance_data` never matches the returned integer against the
string iids, forcing a second (re)assignment whose draw picks x1 even though
the first draw committed x0. -/
theorem C4_assign_returns_index_not_iid :
    (assign_instance_to_team "p4" "t4" false db4).map (fun r => r.1) = .ok 1 ∧
    (assign_instance_to_team "p4" "t4" false db4).map
      (fun r => committedIid r.2 "t4" "p4") = .ok (some "x1") ∧
    (assign_instance_to_team "p4" "t4" false db4b).map
      (fun r => committedIid r.2 "t4" "p4") = .ok (some "x0") ∧
    (get_instance_data 2 "p4" "t4" db4b).map (fun r => r.1.iid) = .ok "x1" := by
  refine ⟨by decide, by decide, by decide, by decide⟩

/-- C2 counterexample: on db2c the team t1 has a prior correct submission
only for p2, yet submitting to p1 reports the third component
(already solved by team) as true, so the component is not scoped to the
submitted pid as the claim states. -/
theorem C2_team_scope_counterexample :
    (submit_key 2 "t1" "p1" "zzz" "game" "u1" none db2c).map
      (fun r => r.1.2.2) = .ok true ∧
    db2c.submissions.any
      (fun s => s.tid == "t1" && s.pid == "p1" && s.correct) = false := by
  refine ⟨by decide, by decide⟩

/-- C10: inserting a bundle whose derived bid is new stores it with
dependencies disabled no matter what the payload carried, and a later
explicit `set_bundle_dependencies_enabled` is what enables them. -/
theorem C10_insert_bundle_forces_dependencies_off
    (db : DB) (payload : BundlePayload)
    (h : db.bundles.find?
      (fun b => b.bid == apiHash (payload.name ++ "-" ++ payload.author)) = none) :
    ∃ db1 stored db2 enabledB,
      insert_bundle db payload = .ok db1 ∧
      db1.bundles.find?
        (fun b => b.bid == apiHash (payload.name ++ "-" ++ payload.author)) = some stored ∧
      stored.dependencies_enabled = false ∧
      set_bundle_dependencies_enabled db1
        (apiHash (payload.name ++ "-" ++ payload.author)) true = .ok db2 ∧
      db2.bundles.find?
        (fun b => b.bid == apiHash (payload.name ++ "-" ++ payload.author)) = some enabledB ∧
      enabledB.dependencies_enabled = true := by
  classical
  set bid := apiHash (payload.name ++ "-" ++ payload.author) with hbid
  set stored : Bundle :=
    { bid := bid, name := payload.name, author := payload.author,
      problems := payload.problems, dependencies := payload.dependencies,
      dependencies_enabled := false } with hstored
  have hins : insert_bundle db payload =
      .ok ({ db with bundles := db.bundles ++ [stored] } : DB) := by
    simp only [insert_bundle]
    rw [← hbid, h]
  have hfind1 : (db.bundles ++ [stored]).find? (fun b => b.bid == bid) = some stored := by
    rw [find?_append_none _ _ _ h]
    simp [List.find?_cons, hstored]
  have hset : set_bundle_dependencies_enabled
      ({ db with bundles := db.bundles ++ [stored] } : DB) bid true =
      .ok ({ db with bundles := setEnabledBid bid true (db.bundles ++ [stored]) } : DB) := by
    simp only [set_bundle_dependencies_enabled]
    rw [hfind1]
  have hg : ∀ a : Bundle,
      ((if a.bid == bid then ({ a with dependencies_enabled := true } : Bundle) else a).bid == bid)
        = (a.bid == bid) := by
    intro a
    by_cases ha : a.bid == bid <;> simp [ha]
  have hfind2 := find?_map_pred
    (fun b => if b.bid == bid then ({ b with dependencies_enabled := true } : Bundle) else b)
    (fun b => b.bid == bid) hg (db.bundles ++ [stored])
  rw [hfind1] at hfind2
  have hsb : stored.bid == bid := by simp [hstored]
  rw [Option.map_some'] at hfind2
  simp only [hsb, if_true] at hfind2
  exact ⟨({ db with bundles := db.bundles ++ [stored] } : DB), stored,
    ({ db with bundles := setEnabledBid bid true (db.bundles ++ [stored]) } : DB),
    ({ stored with dependencies_enabled := true } : Bundle),
    hins, hfind1, rfl, hset, hfind2, rfl⟩

/-- C10 witness: the insertion of a payload carrying dependencies_enabled
true into the empty state. -/
theorem C10_insert_bundle_forces_dependencies_off_witness :
    ∃ db1 stored db2 enabledB,
      insert_bundle dbEmpty payload10 = .ok db1 ∧
      db1.bundles.find?
        (fun b => b.bid == apiHash (payload10.name ++ "-" ++ payload10.author)) = some stored ∧
      stored.dependencies_enabled = false ∧
      set_bundle_dependencies_enabled db1
        (apiHash (payload10.name ++ "-" ++ payload10.author)) true = .ok db2 ∧
      db2.bundles.find?
        (fun b => b.bid == apiHash (payload10.name ++ "-" ++ payload10.author)) = some enabledB ∧
      enabledB.dependencies_enabled = true :=
  C10_insert_bundle_forces_dependencies_off dbEmpty payload10 (by decide)

lemma lookup_append {β : Type} (l r : List (String × β)) (k : String) :
    (l ++ r).lookup k =
      match l.lookup k with
      | some b => some b
      | none => r.lookup k := by
  induction l with
  | nil => rfl
  | cons a rest ih =>
    obtain ⟨k1, v1⟩ := a
    simp only [List.cons_append, List.lookup]
    cases h : k == k1 with
    | true => rfl
    | false => exact ih

lemma lookup_map_set (k v k' : String) (l : List (String × String)) :
    ((l.map (fun p => match p.1 == k with | true => (k, v) | false => p)).lookup k') =
      match l.lookup k' with
      | none => none
      | some b => if k' = k then some v else some b := by
  induction l with
  | nil => rfl
  | cons a rest ih =>
    obtain ⟨k1, v1⟩ := a
    simp only [List.map_cons]
    cases hb : k1 == k with
    | true =>
      have hk1 : k1 = k := eq_of_beq hb
      subst hk1
      simp only [List.lookup]
      cases hb2 : k' == k1 with
      | true =>
        have hk : k' = k1 := eq_of_beq hb2
        simp [hk]
      | false =>
        cases hl : rest.lookup k' with
        | none => simpa [hl] using ih
        | some b => simpa [hl] using ih
    | false =>
      simp only [List.lookup]
      cases hb2 : k' == k1 with
      | true =>
        have hk : k' = k1 := eq_of_beq hb2
        have hne : ¬ k' = k := by
          intro he
          rw [he] at hk
          exact (ne_of_beq_false hb) hk.symm
        simp [hne]
      | false => exact ih

lemma setAssoc_lookup (l : List (String × String)) (k v k' : String) :
    (setAssoc l k v).lookup k' = if k' = k then some v else l.lookup k' := by
  unfold setAssoc
  cases hsome : (l.lookup k).isSome with
  | true =>
    simp only [hsome, if_true]
    rw [lookup_map_set]
    by_cases hk : k' = k
    · subst hk
      cases hl : l.lookup k' with
      | none => rw [hl] at hsome; simp at hsome
      | some b => simp
    · cases hl : l.lookup k' <;> simp [hk]
  | false =>
    simp only [hsome, Bool.false_eq_true, if_false]
    rw [lookup_append]
    cases hl : l.lookup k' with
    | some b =>
      have hk : k' ≠ k := by
        intro he
        subst he
        rw [hl] at hsome
        simp at hsome
      simp [hk]
    | none =>
      by_cases hk : k' = k
      · subst hk
        simp [List.lookup]
      · have hkk : (k' == k) = false := beq_false_of_ne hk
        simp [List.lookup, hkk, hk]

lemma getD_mem_of_lt {α : Type} (l : List α) (n : Nat) (d : α) (h : n < l.length) :
    l.getD n d ∈ l := by
  induction l generalizing n with
  | nil => simp at h
  | cons a t ih =>
    cases n with
    | zero => simp [List.getD]
    | succ m =>
      have hm : m < t.length := by simpa using h
      simpa [List.getD] using Or.inr (ih m hm)

lemma find?_isSome_of_mem {α : Type} (p : α → Bool) (l : List α) (a : α)
    (ha : a ∈ l) (hp : p a = true) : ∃ b, l.find? p = some b := by
  induction l with
  | nil => simp at ha
  | cons x t ih =>
    cases hx : p x with
    | true => exact ⟨x, by simp [List.find?_cons, hx]⟩
    | false =>
      have hat : a ∈ t := by
        cases List.mem_cons.mp ha with
        | inl he => rw [he] at hp; rw [hp] at hx; cases hx
        | inr ht => exact ht
      obtain ⟨b, hb⟩ := ih hat
      exact ⟨b, by simp [List.find?_cons, hx, hb]⟩

lemma map_map_congr {α β : Type} (g : α → α) (f : α → β) (h : ∀ a, f (g a) = f a)
    (l : List α) : (l.map g).map f = l.map f := by
  induction l with
  | nil => rfl
  | cons a t ih => simp [h a, ih]

lemma commitTeams_metaProj (tid pid iid : String) (teams : List Team) :
    (commitTeams tid pid iid teams).map metaProj = teams.map metaProj := by
  unfold commitTeams
  apply map_map_congr
  intro t
  by_cases ht : t.tid == tid <;> simp [metaProj, ht]

lemma get_team_commit (db : DB) (tid tid2 pid iid : String) (R : List Nat) :
    get_team ({ db with teams := commitTeams tid pid iid db.teams, rng := R } : DB) tid2 =
      (get_team db tid2).map (fun t =>
        if t.tid == tid then { t with instances := setAssoc t.instances pid iid } else t) := by
  unfold get_team commitTeams
  rw [find?_map_pred _ _ (fun t => by by_cases h : t.tid == tid <;> simp [h])]
  cases db.teams.find? (fun t => t.tid == tid2) <;> rfl

lemma get_team_error_shape (db : DB) (tid : String) (e : ApiError)
    (h : get_team db tid = .error e) : e = .internal "team not found" := by
  unfold get_team at h
  cases hf : db.teams.find? (fun t => t.tid == tid) with
  | some t => rw [hf] at h; cases h
  | none => rw [hf] at h; cases h; rfl

lemma get_problem_error_shape (db : DB) (pid : String) (e : ApiError)
    (h : get_problem db pid = .error e) : e = .severeInternal "could not find problem" := by
  unfold get_problem at h
  cases hf : findProblem db.problems pid with
  | some p => rw [hf] at h; cases h
  | none => rw [hf] at h; cases h; rfl

lemma availableInstances_subset (problem : Problem) (team : Team) (settings : Settings)
    (inst : Instance) (h : inst ∈ availableInstances problem team settings) :
    inst ∈ problem.instances := by
  unfold availableInstances at h
  by_cases hs : settings.enable_sharding
  · rw [if_pos hs] at h
    exact List.mem_of_mem_filter h
  · rwa [if_neg hs] at h

lemma assign_ok_shape (pid tid : String) (r : Bool) (db : DB) (k : Nat) (db1 : DB)
    (h : assign_instance_to_team pid tid r db = .ok (k, db1)) :
    ∃ team problem inst,
      get_team db tid = .ok team ∧
      get_problem db pid = .ok problem ∧
      inst ∈ problem.instances ∧
      db1 = { db with
        rng := db.rng.tail,
        teams := commitTeams tid pid inst.iid db.teams } := by
  unfold assign_instance_to_team at h
  cases hT : get_team db tid with
  | error e => simp only [hT] at h; cases h
  | ok team =>
    simp only [hT] at h
    cases hP : get_problem db pid with
    | error e => simp only [hP] at h; cases h
    | ok problem =>
      simp only [hP] at h
      split at h
      · cases h
      · split at h
        · split at h <;> cases h
        · rename_i hguard hlen
          have hpos : 0 < (availableInstances problem team db.settings).length := by
            cases hn : (availableInstances problem team db.settings).length with
            | zero => rw [hn] at hlen; simp at hlen
            | succ m => exact Nat.succ_pos m
          have hlt : db.rng.headD 0 % (availableInstances problem team db.settings).length <
              (availableInstances problem team db.settings).length := Nat.mod_lt _ hpos
          have hmem := getD_mem_of_lt (availableInstances problem team db.settings)
            (db.rng.headD 0 % (availableInstances problem team db.settings).length)
            defaultInstance hlt
          cases h
          exact ⟨team, problem, _, rfl, rfl,
            availableInstances_subset _ _ _ _ hmem, rfl⟩

lemma assign_error_shape (pid tid : String) (r : Bool) (db : DB) (e : ApiError)
    (h : assign_instance_to_team pid tid r db = .error e) : e ≠ .outOfFuel := by
  intro hc
  subst hc
  unfold assign_instance_to_team at h
  cases hT : get_team db tid with
  | error e1 =>
    simp only [hT] at h
    rw [get_team_error_shape db tid e1 hT] at h
    simp at h
  | ok team =>
    simp only [hT] at h
    cases hP : get_problem db pid with
    | error e1 =>
      simp only [hP] at h
      rw [get_problem_error_shape db pid e1 hP] at h
      simp at h
    | ok problem =>
      simp only [hP] at h
      split at h
      · simp at h
      · split at h
        · split at h <;> simp at h
        · simp at h

lemma isOutOfFuel_error (e : ApiError) (h : e ≠ .outOfFuel) :
    isOutOfFuel (.error e) = false := by
  cases e with
  | outOfFuel => exact absurd rfl h
  | internal m => rfl
  | severeInternal m => rfl
  | web m => rfl
  | validation m => rfl
  | typeError m => rfl

lemma resolve_after_assign (pid tid : String) (r : Bool) (db : DB) (k : Nat) (db2 : DB)
    (h : assign_instance_to_team pid tid r db = .ok (k, db2)) :
    ∃ inst, ∀ f : Nat, get_instance_data (f + 1) pid tid db2 = .ok (inst, db2) := by
  obtain ⟨team, problem, cinst, hT, hP, hmem, hdb⟩ := assign_ok_shape pid tid r db k db2 h
  have hbt : (team.tid == tid) = true := by
    unfold get_team at hT
    cases hf : db.teams.find? (fun t => t.tid == tid) with
    | none => simp only [hf] at hT; cases hT
    | some t =>
      simp only [hf] at hT
      cases hT
      simpa using List.find?_some hf
  have hteam2 : get_team db2 tid =
      .ok { team with instances := setAssoc team.instances pid cinst.iid } := by
    rw [hdb, get_team_commit db tid tid pid cinst.iid db.rng.tail, hT]
    simp [Except.map, hbt]
  have hprob2 : get_problem db2 pid = .ok problem := by
    rw [hdb]
    exact hP
  have hlk : (setAssoc team.instances pid cinst.iid).lookup pid = some cinst.iid := by
    rw [setAssoc_lookup]
    simp
  have hpy : pyEqStr cinst.iid (.str cinst.iid) = true := by
    simp [pyEqStr]
  obtain ⟨inst0, hfind⟩ := find?_isSome_of_mem
    (fun i => pyEqStr i.iid (.str cinst.iid)) problem.instances cinst hmem hpy
  refine ⟨inst0, fun f => ?_⟩
  show gidStep pid tid (fun d => get_instance_data f pid tid d) db2 = .ok (inst0, db2)
  unfold gidStep
  simp only [hteam2, hprob2, hlk, hfind]

lemma gidStep_team_err (pid tid : String) (recur : DB → Except ApiError (Instance × DB))
    (db : DB) (e : ApiError) (hT : get_team db tid = .error e) :
    gidStep pid tid recur db = .error e := by
  unfold gidStep
  rw [hT]

lemma gidStep_problem_err (pid tid : String) (recur : DB → Except ApiError (Instance × DB))
    (db : DB) (team : Team) (e : ApiError)
    (hT : get_team db tid = .ok team) (hP : get_problem db pid = .error e) :
    gidStep pid tid recur db = .error e := by
  unfold gidStep
  rw [hT, hP]

lemma gidStep_committed (pid tid : String) (recur : DB → Except ApiError (Instance × DB))
    (db : DB) (team : Team) (problem : Problem) (s : String)
    (hT : get_team db tid = .ok team) (hP : get_problem db pid = .ok problem)
    (hL : team.instances.lookup pid = some s) :
    gidStep pid tid recur db =
      match problem.instances.find? (fun i => pyEqStr i.iid (.str s)) with
      | some inst => .ok (inst, db)
      | none =>
        match assign_instance_to_team pid tid true db with
        | .error e => .error e
        | .ok (_, db2) => recur db2 := by
  unfold gidStep
  simp only [hT, hP, hL]

lemma gidStep_fresh_err (pid tid : String) (recur : DB → Except ApiError (Instance × DB))
    (db : DB) (team : Team) (problem : Problem) (e : ApiError)
    (hT : get_team db tid = .ok team) (hP : get_problem db pid = .ok problem)
    (hL : team.instances.lookup pid = none)
    (hA : assign_instance_to_team pid tid false db = .error e) :
    gidStep pid tid recur db = .error e := by
  unfold gidStep
  simp only [hT, hP, hL, hA]

lemma gidStep_fresh_ok (pid tid : String) (recur : DB → Except ApiError (Instance × DB))
    (db : DB) (team : Team) (problem : Problem) (k0 : Nat) (db0 : DB)
    (hT : get_team db tid = .ok team) (hP : get_problem db pid = .ok problem)
    (hL : team.instances.lookup pid = none)
    (hA : assign_instance_to_team pid tid false db = .ok (k0, db0)) :
    gidStep pid tid recur db =
      match problem.instances.find? (fun i => pyEqStr i.iid (.int k0)) with
      | some inst => .ok (inst, db0)
      | none =>
        match assign_instance_to_team pid tid true db0 with
        | .error e => .error e
        | .ok (_, db2) => recur db2 := by
  unfold gidStep
  simp only [hT, hP, hL, hA]

lemma gidStep_congr (pid tid : String) (r1 r2 : DB → Except ApiError (Instance × DB))
    (db : DB)
    (h : ∀ k db1 db2, assign_instance_to_team pid tid true db1 = .ok (k, db2) →
      r1 db2 = r2 db2) :
    gidStep pid tid r1 db = gidStep pid tid r2 db := by
  cases hT : get_team db tid with
  | error e => rw [gidStep_team_err pid tid r1 db e hT, gidStep_team_err pid tid r2 db e hT]
  | ok team =>
    cases hP : get_problem db pid with
    | error e =>
      rw [gidStep_problem_err pid tid r1 db team e hT hP,
        gidStep_problem_err pid tid r2 db team e hT hP]
    | ok problem =>
      cases hL : team.instances.lookup pid with
      | some s =>
        rw [gidStep_committed pid tid r1 db team problem s hT hP hL,
          gidStep_committed pid tid r2 db team problem s hT hP hL]
        cases hF : problem.instances.find? (fun i => pyEqStr i.iid (.str s)) with
        | some inst => rfl
        | none =>
          cases hA : assign_instance_to_team pid tid true db with
          | error e => rfl
          | ok pr =>
            obtain ⟨ka, dba⟩ := pr
            exact h ka db dba hA
      | none =>
        cases hA0 : assign_instance_to_team pid tid false db with
        | error e =>
          rw [gidStep_fresh_err pid tid r1 db team problem e hT hP hL hA0,
            gidStep_fresh_err pid tid r2 db team problem e hT hP hL hA0]
        | ok pr0 =>
          obtain ⟨k0, db0⟩ := pr0
          rw [gidStep_fresh_ok pid tid r1 db team problem k0 db0 hT hP hL hA0,
            gidStep_fresh_ok pid tid r2 db team problem k0 db0 hT hP hL hA0]
          cases hF : problem.instances.find? (fun i => pyEqStr i.iid (.int k0)) with
          | some inst => rfl
          | none =>
            cases hA : assign_instance_to_team pid tid true db0 with
            | error e => rfl
            | ok pr =>
              obtain ⟨ka, dba⟩ := pr
              exact h ka db0 dba hA

lemma gid_no_fuel (pid tid : String) (db : DB) :
    isOutOfFuel (get_instance_data 2 pid tid db) = false := by
  have e2 : get_instance_data 2 pid tid db =
      gidStep pid tid (fun d => get_instance_data 1 pid tid d) db := rfl
  rw [e2]
  cases hT : get_team db tid with
  | error e =>
    rw [gidStep_team_err pid tid _ db e hT]
    exact isOutOfFuel_error e (by simp [get_team_error_shape db tid e hT])
  | ok team =>
    cases hP : get_problem db pid with
    | error e =>
      rw [gidStep_problem_err pid tid _ db team e hT hP]
      exact isOutOfFuel_error e (by simp [get_problem_error_shape db pid e hP])
    | ok problem =>
      cases hL : team.instances.lookup pid with
      | some s =>
        rw [gidStep_committed pid tid _ db team problem s hT hP hL]
        cases hF : problem.instances.find? (fun i => pyEqStr i.iid (.str s)) with
        | some inst => rfl
        | none =>
          cases hA : assign_instance_to_team pid tid true db with
          | error e => exact isOutOfFuel_error e (assign_error_shape pid tid true db e hA)
          | ok pr =>
            obtain ⟨ka, dba⟩ := pr
            obtain ⟨inst, hres⟩ := resolve_after_assign pid tid true db ka dba hA
            have h1 := hres 0
            rw [Nat.zero_add] at h1
            simp only [h1]
            rfl
      | none =>
        cases hA0 : assign_instance_to_team pid tid false db with
        | error e =>
          rw [gidStep_fresh_err pid tid _ db team problem e hT hP hL hA0]
          exact isOutOfFuel_error e (assign_error_shape pid tid false db e hA0)
        | ok pr0 =>
          obtain ⟨k0, db0⟩ := pr0
          rw [gidStep_fresh_ok pid tid _ db team problem k0 db0 hT hP hL hA0]
          cases hF : problem.instances.find? (fun i => pyEqStr i.iid (.int k0)) with
          | some inst => rfl
          | none =>
            cases hA : assign_instance_to_team pid tid true db0 with
            | error e => exact isOutOfFuel_error e (assign_error_shape pid tid true db0 e hA)
            | ok pr =>
              obtain ⟨ka, dba⟩ := pr
              obtain ⟨inst, hres⟩ := resolve_after_assign pid tid true db0 ka dba hA
              have h1 := hres 0
              rw [Nat.zero_add] at h1
              simp only [h1]
              rfl

/-- C5: sequential instance resolution is bounded: the result at any fuel of
at least two equals the result at fuel two, i.e. the source performs at most
one forced reassignment before resolving, because a successful reassignment
always commits an iid drawn from the current instance list of the problem, so
the retried lookup never misses; in particular the fuel-two run never ends in
the out-of-fuel marker (the conditional of the claim - a second miss - cannot
arise in a sequential execution, and the source would recurse there rather
than raise). -/
theorem C5_get_instance_data_bounded (db : DB) (pid tid : String) (n : Nat) :
    get_instance_data (n + 2) pid tid db = get_instance_data 2 pid tid db ∧
    isOutOfFuel (get_instance_data 2 pid tid db) = false := by
  refine ⟨?_, gid_no_fuel pid tid db⟩
  show gidStep pid tid (fun d => get_instance_data (n + 1) pid tid d) db =
    gidStep pid tid (fun d => get_instance_data 1 pid tid d) db
  apply gidStep_congr
  intro k db1 db2 hA
  obtain ⟨inst, hres⟩ := resolve_after_assign pid tid true db1 k db2 hA
  have ha := hres n
  have hb := hres 0
  rw [Nat.zero_add] at hb
  rw [ha, hb]

lemma allocFrame_refl (db : DB) : AllocFrame db db :=
  ⟨rfl, rfl, rfl, rfl, rfl, rfl, rfl, rfl⟩

lemma allocFrame_trans {db db1 db2 : DB} (h1 : AllocFrame db db1)
    (h2 : AllocFrame db1 db2) : AllocFrame db db2 :=
  ⟨h2.problems_eq.trans h1.problems_eq, h2.bundles_eq.trans h1.bundles_eq,
   h2.submissions_eq.trans h1.submissions_eq, h2.users_eq.trans h1.users_eq,
   h2.settings_eq.trans h1.settings_eq, h2.debug_eq.trans h1.debug_eq,
   h2.clock_eq.trans h1.clock_eq, h2.teams_meta.trans h1.teams_meta⟩

lemma assign_frame (pid tid : String) (r : Bool) (db : DB) (k : Nat) (db1 : DB)
    (h : assign_instance_to_team pid tid r db = .ok (k, db1)) : AllocFrame db db1 := by
  obtain ⟨team, problem, inst, hT, hP, hmem, hdb⟩ := assign_ok_shape pid tid r db k db1 h
  subst hdb
  exact ⟨rfl, rfl, rfl, rfl, rfl, rfl, rfl, commitTeams_metaProj tid pid inst.iid db.teams⟩

lemma assignLoop_frame (tid : String) (snap : Team) (l : List String) :
    ∀ db db1, assignLoop tid snap l db = .ok db1 → AllocFrame db db1 := by
  induction l with
  | nil =>
    intro db db1 h
    cases h
    exact allocFrame_refl db
  | cons pid rest ih =>
    intro db db1 h
    unfold assignLoop at h
    split at h
    · exact ih db db1 h
    · cases hA : assign_instance_to_team pid tid false db with
      | error e => simp only [hA] at h; cases h
      | ok pr =>
        obtain ⟨k0, db0⟩ := pr
        simp only [hA] at h
        exact allocFrame_trans (assign_frame pid tid false db k0 db0 hA) (ih db0 db1 h)

lemma gid_frame (pid tid : String) :
    ∀ (fuel : Nat) (db : DB) (inst : Instance) (db1 : DB),
      get_instance_data fuel pid tid db = .ok (inst, db1) → AllocFrame db db1 := by
  intro fuel
  induction fuel with
  | zero =>
    intro db inst db1 h
    simp [get_instance_data] at h
  | succ f ih =>
    intro db inst db1 h
    have h1 : gidStep pid tid (fun d => get_instance_data f pid tid d) db = .ok (inst, db1) := h
    cases hT : get_team db tid with
    | error e => rw [gidStep_team_err pid tid _ db e hT] at h1; cases h1
    | ok team =>
      cases hP : get_problem db pid with
      | error e => rw [gidStep_problem_err pid tid _ db team e hT hP] at h1; cases h1
      | ok problem =>
        cases hL : team.instances.lookup pid with
        | some s =>
          rw [gidStep_committed pid tid _ db team problem s hT hP hL] at h1
          cases hF : problem.instances.find? (fun i => pyEqStr i.iid (.str s)) with
          | some inst0 =>
            simp only [hF] at h1
            cases h1
            exact allocFrame_refl db
          | none =>
            simp only [hF] at h1
            cases hA : assign_instance_to_team pid tid true db with
            | error e => simp only [hA] at h1; cases h1
            | ok pr =>
              obtain ⟨ka, dba⟩ := pr
              simp only [hA] at h1
              exact allocFrame_trans (assign_frame pid tid true db ka dba hA)
                (ih dba inst db1 h1)
        | none =>
          cases hA0 : assign_instance_to_team pid tid false db with
          | error e => rw [gidStep_fresh_err pid tid _ db team problem e hT hP hL hA0] at h1; cases h1
          | ok pr0 =>
            obtain ⟨k0, db0⟩ := pr0
            rw [gidStep_fresh_ok pid tid _ db team problem k0 db0 hT hP hL hA0] at h1
            cases hF : problem.instances.find? (fun i => pyEqStr i.iid (.int k0)) with
            | some inst0 =>
              simp only [hF] at h1
              cases h1
              exact assign_frame pid tid false db k0 _ hA0
            | none =>
              simp only [hF] at h1
              cases hA : assign_instance_to_team pid tid true db0 with
              | error e => simp only [hA] at h1; cases h1
              | ok pr =>
                obtain ⟨ka, dba⟩ := pr
                simp only [hA] at h1
                exact allocFrame_trans (assign_frame pid tid false db k0 db0 hA0)
                  (allocFrame_trans (assign_frame pid tid true db0 ka dba hA)
                    (ih dba inst db1 h1))

lemma grade_frame (fuel : Nat) (pid key tid : String) (db : DB) (b : Bool) (db1 : DB)
    (h : grade_problem fuel pid key tid db = .ok (b, db1)) : AllocFrame db db1 := by
  unfold grade_problem at h
  cases hG : get_instance_data fuel pid tid db with
  | error e => simp only [hG] at h; cases h
  | ok pr =>
    obtain ⟨inst, dbx⟩ := pr
    simp only [hG] at h
    cases h
    exact gid_frame pid tid fuel db inst db1 hG

lemma unlocked_frame (tid : String) (cat : Option String) (db : DB) (l : List String)
    (db1 : DB) (h : get_unlocked_pids tid cat db = .ok (l, db1)) : AllocFrame db db1 := by
  unfold get_unlocked_pids at h
  cases hS : get_solved_problems db tid none false with
  | error e => simp only [hS] at h; cases h
  | ok solved =>
    simp only [hS] at h
    cases hT : get_team db tid with
    | error e => simp only [hT] at h; cases h
    | ok team =>
      simp only [hT] at h
      cases hA : assignLoop tid team (unlockedList db cat solved) db with
      | error e => simp only [hA] at h; cases h
      | ok db2 =>
        simp only [hA] at h
        cases h
        exact assignLoop_frame tid team (unlockedList db cat solved) db db1 hA

/-- C2 (amended): the components reported by `submit_key` are both global:
the second is true iff the user has any prior correct submission anywhere,
and the third is true iff the team has any prior correct submission anywhere
- neither is scoped to the submitted pid. -/
theorem C2_submit_key_prev_flags (fuel : Nat) (tid pid key method uid : String)
    (ip : Option String) (db : DB) (c pu pt : Bool) (db1 : DB)
    (h : submit_key fuel tid pid key method uid ip db = .ok ((c, pu, pt), db1)) :
    pu = db.submissions.any (fun s => s.uid == uid && s.correct) ∧
    pt = db.submissions.any (fun s => s.tid == tid && s.correct) := by
  unfold submit_key at h
  split at h
  · cases h
  · cases hU : get_unlocked_pids tid none db with
    | error e => simp only [hU] at h; cases h
    | ok pr =>
      obtain ⟨unlocked, dbA⟩ := pr
      simp only [hU] at h
      have hfr := unlocked_frame tid none db unlocked dbA hU
      split at h
      · split at h
        · cases hG : grade_problem fuel pid key tid dbA with
          | error e => simp only [hG] at h; cases h
          | ok prg =>
            obtain ⟨correct, dbB⟩ := prg
            simp only [hG] at h
            rw [hfr.submissions_eq] at h
            split at h
            · cases h
              exact ⟨rfl, rfl⟩
            · cases hP : get_problem dbB pid with
              | error e => simp only [hP] at h; cases h
              | ok problem =>
                simp only [hP] at h
                cases h
                exact ⟨rfl, rfl⟩
        · cases h
      · cases h

/-- C2 (amended) witness: the submission on db2c, where the user flag is
false and the team flag is true from the p2-only prior solve. -/
theorem C2_submit_key_prev_flags_witness :
    (false : Bool) = db2c.submissions.any (fun s => s.uid == "u1" && s.correct) ∧
    (true : Bool) = db2c.submissions.any (fun s => s.tid == "t1" && s.correct) :=
  C2_submit_key_prev_flags 2 "t1" "p1" "zzz" "game" "u1" none db2c false false true
    db2cPost (by decide)

lemma get_problem_congr (dbX dbY : DB) (pid : String) (h : dbX.problems = dbY.problems) :
    get_problem dbX pid = get_problem dbY pid := by
  unfold get_problem findProblem
  rw [h]

/-- C3: a validated, unlocked, user-resolved submission is persisted to the
ledger iff the submitting user had no prior correct submission anywhere in
the ledger at call time; when the user already has one the ledger is
unchanged whatever the grading outcome, and when not, exactly the one new
attempt record (carrying the graded verdict) is appended. -/
theorem C3_submit_key_first_correct_gates_ledger (fuel : Nat)
    (tid pid key method uid : String) (ip : Option String) (db : DB)
    (c pu pt : Bool) (db1 : DB)
    (h : submit_key fuel tid pid key method uid ip db = .ok ((c, pu, pt), db1)) :
    pu = db.submissions.any (fun s => s.uid == uid && s.correct) ∧
    (pu = true → db1.submissions = db.submissions) ∧
    (pu = false → ∃ P, get_problem db pid = .ok P ∧
      db1.submissions = db.submissions ++
        [{ uid := uid, tid := tid, pid := pid, key := key, method := method, ip := ip,
           category := P.category, correct := c, timestamp := db.clock }]) := by
  unfold submit_key at h
  split at h
  · cases h
  · cases hU : get_unlocked_pids tid none db with
    | error e => simp only [hU] at h; cases h
    | ok pr =>
      obtain ⟨unlocked, dbA⟩ := pr
      simp only [hU] at h
      have hfr := unlocked_frame tid none db unlocked dbA hU
      split at h
      · split at h
        · cases hG : grade_problem fuel pid key tid dbA with
          | error e => simp only [hG] at h; cases h
          | ok prg =>
            obtain ⟨correct, dbB⟩ := prg
            simp only [hG] at h
            have hgf := grade_frame fuel pid key tid dbA correct dbB hG
            rw [hfr.submissions_eq] at h
            split at h
            · rename_i hc
              cases h
              refine ⟨rfl, fun _ => hgf.submissions_eq.trans hfr.submissions_eq, fun hfalse => ?_⟩
              cases hc.symm.trans hfalse
            · rename_i hc
              have hexpr : db.submissions.any (fun s => s.uid == uid && s.correct) = false := by
                revert hc
                cases db.submissions.any (fun s => s.uid == uid && s.correct) <;> simp
              cases hP : get_problem dbB pid with
              | error e => simp only [hP] at h; cases h
              | ok problem =>
                simp only [hP] at h
                cases h
                have hPdb : get_problem db pid = .ok problem := by
                  rw [get_problem_congr db dbB pid
                    (hgf.problems_eq.trans hfr.problems_eq).symm]
                  exact hP
                refine ⟨rfl, fun htrue => ?_, fun _ => ⟨problem, hPdb, ?_⟩⟩
                · cases hexpr.symm.trans htrue
                · show dbB.submissions ++ _ = db.submissions ++ _
                  rw [hgf.submissions_eq, hfr.submissions_eq,
                    hgf.clock_eq, hfr.clock_eq]
        · cases h
      · cases h

/-- C3 witness: the db2c submission, where the user has no prior correct
submission, so the attempt is appended. -/
theorem C3_submit_key_first_correct_gates_ledger_witness :
    (false : Bool) = db2c.submissions.any (fun s => s.uid == "u1" && s.correct) ∧
    ((false : Bool) = true → db2cPost.submissions = db2c.submissions) ∧
    ((false : Bool) = false → ∃ P, get_problem db2c "p1" = .ok P ∧
      db2cPost.submissions = db2c.submissions ++
        [{ uid := "u1", tid := "t1", pid := "p1", key := "zzz", method := "game",
           ip := none, category := P.category, correct := false,
           timestamp := db2c.clock }]) :=
  C3_submit_key_first_correct_gates_ledger 2 "t1" "p1" "zzz" "game" "u1" none db2c
    false false true db2cPost (by decide)

lemma get_team_meta_map (T S : List Team) (x : String)
    (h : T.map metaProj = S.map metaProj) :
    (T.find? (fun t => t.tid == x)).map metaProj =
      (S.find? (fun t => t.tid == x)).map metaProj := by
  induction T generalizing S with
  | nil =>
    cases S with
    | nil => rfl
    | cons b S1 => simp at h
  | cons a T1 ih =>
    cases S with
    | nil => simp at h
    | cons b S1 =>
      simp only [List.map_cons, List.cons.injEq] at h
      obtain ⟨hab, hrest⟩ := h
      have htid : a.tid = b.tid := congrArg (fun m => m.1) hab
      simp only [List.find?]
      rw [htid]
      cases hb : b.tid == x with
      | true => simp only [Option.map_some']; rw [hab]
      | false => exact ih S1 hrest

lemma get_solved_frame (db db1 : DB) (h : AllocFrame db db1) (tid : String)
    (cat : Option String) (sd : Bool) :
    get_solved_problems db1 tid cat sd = get_solved_problems db tid cat sd := by
  unfold get_solved_problems get_team
  have hmeta := get_team_meta_map db1.teams db.teams tid h.teams_meta
  cases o1 : db1.teams.find? (fun t => t.tid == tid) with
  | none =>
    cases o : db.teams.find? (fun t => t.tid == tid) with
    | none => rfl
    | some t => rw [o1, o] at hmeta; cases hmeta
  | some t1 =>
    cases o : db.teams.find? (fun t => t.tid == tid) with
    | none => rw [o1, o] at hmeta; cases hmeta
    | some t =>
      rw [o1, o] at hmeta
      simp only [Option.map_some', Option.some.injEq] at hmeta
      have hmem : t1.members = t.members := congrArg (fun m => m.2.1) hmeta
      simp only []
      unfold solvedCore
      rw [h.submissions_eq, h.problems_eq, hmem]

lemma unlockedList_frame (db db1 : DB) (h : AllocFrame db db1) (cat : Option String)
    (solved : List Problem) :
    unlockedList db1 cat solved = unlockedList db cat solved := by
  unfold unlockedList get_all_problems is_problem_unlocked
  rw [h.problems_eq, h.bundles_eq]

lemma assignLoop_noop (tid : String) (snap : Team) (l : List String) (db : DB)
    (h : ∀ pid ∈ l, (snap.instances.lookup pid).isSome) :
    assignLoop tid snap l db = .ok db := by
  induction l with
  | nil => rfl
  | cons pid rest ih =>
    unfold assignLoop
    rw [if_pos (h pid (List.mem_cons_self pid rest))]
    exact ih (fun q hq => h q (List.mem_cons_of_mem pid hq))

lemma committedIid_assign_mono (pid2 tid2 pid tid : String) (r : Bool) (db : DB)
    (k : Nat) (db1 : DB) (h : assign_instance_to_team pid tid r db = .ok (k, db1))
    (hc : (committedIid db tid2 pid2).isSome) : (committedIid db1 tid2 pid2).isSome := by
  obtain ⟨team, problem, inst, hT, hP, hmem, hdb⟩ := assign_ok_shape pid tid r db k db1 h
  subst hdb
  unfold committedIid at hc ⊢
  rw [get_team_commit db tid tid2 pid inst.iid db.rng.tail]
  cases ht2 : get_team db tid2 with
  | error e => rw [ht2] at hc; simp at hc
  | ok t2 =>
    rw [ht2] at hc
    simp only [Except.map, ht2]
    by_cases hb : t2.tid == tid
    · simp only [hb, if_true]
      rw [setAssoc_lookup]
      by_cases hpp : pid2 = pid
      · simp [hpp]
      · simp only [if_neg hpp]
        exact hc
    · simp only [hb, if_false]
      exact hc

lemma committedIid_assign_self (pid tid : String) (r : Bool) (db : DB)
    (k : Nat) (db1 : DB) (h : assign_instance_to_team pid tid r db = .ok (k, db1)) :
    (committedIid db1 tid pid).isSome := by
  obtain ⟨team, problem, inst, hT, hP, hmem, hdb⟩ := assign_ok_shape pid tid r db k db1 h
  have hbt : (team.tid == tid) = true := by
    unfold get_team at hT
    cases hf : db.teams.find? (fun t => t.tid == tid) with
    | none => simp only [hf] at hT; cases hT
    | some t =>
      simp only [hf] at hT
      cases hT
      simpa using List.find?_some hf
  subst hdb
  unfold committedIid
  rw [get_team_commit db tid tid pid inst.iid db.rng.tail, hT]
  simp only [Except.map, hbt, if_true]
  rw [setAssoc_lookup]
  simp

lemma assignLoop_committed (tid : String) (snap : Team) (l : List String) :
    ∀ db db1, assignLoop tid snap l db = .ok db1 →
    (∀ p, (snap.instances.lookup p).isSome → (committedIid db tid p).isSome) →
    ∀ p, (p ∈ l ∨ (committedIid db tid p).isSome) → (committedIid db1 tid p).isSome := by
  induction l with
  | nil =>
    intro db db1 h hsnap p hp
    cases h
    cases hp with
    | inl hmem => simp at hmem
    | inr hc => exact hc
  | cons pid rest ih =>
    intro db db1 h hsnap p hp
    unfold assignLoop at h
    split at h
    · rename_i hg
      refine ih db db1 h hsnap p ?_
      cases hp with
      | inl hmem =>
        cases List.mem_cons.mp hmem with
        | inl he => exact Or.inr (he ▸ hsnap pid hg)
        | inr ht => exact Or.inl ht
      | inr hc => exact Or.inr hc
    · cases hA : assign_instance_to_team pid tid false db with
      | error e => simp only [hA] at h; cases h
      | ok pr =>
        obtain ⟨k0, db0⟩ := pr
        simp only [hA] at h
        refine ih db0 db1 h
          (fun q hq => committedIid_assign_mono q tid pid tid false db k0 db0 hA (hsnap q hq))
          p ?_
        cases hp with
        | inl hmem =>
          cases List.mem_cons.mp hmem with
          | inl he =>
            exact Or.inr (he ▸ committedIid_assign_self pid tid false db k0 db0 hA)
          | inr ht => exact Or.inl ht
        | inr hc =>
          exact Or.inr (committedIid_assign_mono p tid pid tid false db k0 db0 hA hc)

/-- C6: `get_unlocked_pids` is idempotent: when a call returns a pid list and
a successor state, running it again on that state returns the same list and
leaves the state completely unchanged - in particular no committed instance
mapping of any team changes, because a pid already committed is never
reassigned. -/
theorem C6_get_unlocked_pids_idempotent (tid : String) (cat : Option String)
    (db : DB) (l : List String) (db1 : DB)
    (h : get_unlocked_pids tid cat db = .ok (l, db1)) :
    get_unlocked_pids tid cat db1 = .ok (l, db1) := by
  unfold get_unlocked_pids at h
  cases hS : get_solved_problems db tid none false with
  | error e => simp only [hS] at h; cases h
  | ok solved =>
    simp only [hS] at h
    cases hT : get_team db tid with
    | error e => simp only [hT] at h; cases h
    | ok snap =>
      simp only [hT] at h
      cases hA : assignLoop tid snap (unlockedList db cat solved) db with
      | error e => simp only [hA] at h; cases h
      | ok dbX =>
        simp only [hA] at h
        cases h
        have hfr : AllocFrame db db1 :=
          assignLoop_frame tid snap (unlockedList db cat solved) db db1 hA
        have hS2 : get_solved_problems db1 tid none false = .ok solved := by
          rw [get_solved_frame db db1 hfr tid none false]
          exact hS
        have hmeta := get_team_meta_map db1.teams db.teams tid hfr.teams_meta
        cases o1 : db1.teams.find? (fun t => t.tid == tid) with
        | none =>
          exfalso
          unfold get_team at hT
          cases o : db.teams.find? (fun t => t.tid == tid) with
          | none => simp only [o] at hT; cases hT
          | some t =>
            rw [o1, o] at hmeta
            cases hmeta
        | some snap2 =>
          have hT2 : get_team db1 tid = .ok snap2 := by
            unfold get_team
            rw [o1]
          have hUL : unlockedList db1 cat solved = unlockedList db cat solved :=
            unlockedList_frame db db1 hfr cat solved
          have hcomm : ∀ p ∈ unlockedList db cat solved,
              (committedIid db1 tid p).isSome := by
            intro p hp
            refine assignLoop_committed tid snap (unlockedList db cat solved) db db1 hA
              ?_ p (Or.inl hp)
            intro q hq
            unfold committedIid
            rw [hT]
            exact hq
          have hsnap2 : ∀ p ∈ unlockedList db1 cat solved,
              (snap2.instances.lookup p).isSome := by
            intro p hp
            rw [hUL] at hp
            have hc := hcomm p hp
            unfold committedIid at hc
            rw [hT2] at hc
            exact hc
          have hloop : assignLoop tid snap2 (unlockedList db1 cat solved) db1 = .ok db1 :=
            assignLoop_noop tid snap2 (unlockedList db1 cat solved) db1 hsnap2
          rw [hUL] at hloop
          unfold get_unlocked_pids
          simp only [hS2, hT2, hUL, hloop]

/-- C6 witness: on db6 the team already has its committed instance, so the
call is a pure read and the theorem applies to it. -/
theorem C6_get_unlocked_pids_idempotent_witness :
    get_unlocked_pids "t1" none db6 = .ok (["p1"], db6) :=
  C6_get_unlocked_pids_idempotent "t1" none db6 ["p1"] db6 (by decide)

lemma mem_insertSorted (p q : Problem) (l : List Problem) :
    p ∈ insertSorted q l ↔ p = q ∨ p ∈ l := by
  induction l with
  | nil => simp [insertSorted]
  | cons a t ih =>
    unfold insertSorted
    by_cases hle : problemLE q a
    · simp [hle]
    · simp only [hle, Bool.false_eq_true, if_false, List.mem_cons, ih]
      tauto

lemma mem_sortProblems (p : Problem) (l : List Problem) :
    p ∈ sortProblems l ↔ p ∈ l := by
  induction l with
  | nil => simp [sortProblems]
  | cons a t ih =>
    show p ∈ insertSorted a (sortProblems t) ↔ _
    rw [mem_insertSorted]
    simp [ih]

/-- C7: the solved set driving the threshold evaluation of
`get_unlocked_pids` is the category-free global solved history (hypothesis
`hs` is the `category=None` solved computation), whatever category the caller
requests: a pid is in the returned list iff some stored problem carries it,
is enabled, matches the requested category, and is unlocked against that
global solved set - the category argument only filters the output. -/
theorem C7_category_restricts_output_only (tid : String) (cat : Option String)
    (db : DB) (l : List String) (db1 : DB) (solved : List Problem)
    (h : get_unlocked_pids tid cat db = .ok (l, db1))
    (hs : get_solved_problems db tid none false = .ok solved) :
    ∀ pid, pid ∈ l ↔ ∃ p, p ∈ db.problems ∧ p.pid = pid ∧ p.disabled = false ∧
      catMatch cat p = true ∧ is_problem_unlocked db p solved = true := by
  unfold get_unlocked_pids at h
  cases hS : get_solved_problems db tid none false with
  | error e => simp only [hS] at h; cases h
  | ok solved2 =>
    injection hS.symm.trans hs with hsv
    subst hsv
    simp only [hS] at h
    cases hT : get_team db tid with
    | error e => simp only [hT] at h; cases h
    | ok snap =>
      simp only [hT] at h
      cases hA : assignLoop tid snap (unlockedList db cat solved2) db with
      | error e => simp only [hA] at h; cases h
      | ok dbX =>
        simp only [hA] at h
        cases h
        intro pid
        unfold unlockedList get_all_problems filterProblems
        simp only [List.mem_map, List.mem_filter, mem_sortProblems,
          Bool.and_eq_true, Bool.false_or, Bool.not_eq_true']
        constructor
        · rintro ⟨p, ⟨⟨hmem, hcat, hdis⟩, hunlocked⟩, hpid⟩
          exact ⟨p, hmem, hpid, hdis, hcat, hunlocked⟩
        · rintro ⟨p, hmem, hpid, hdis, hcat, hunlocked⟩
          exact ⟨p, ⟨⟨hmem, hcat, hdis⟩, hunlocked⟩, hpid⟩

/-- C7 witness: the category-restricted call on db7 returning only the
forensics problem, with the empty global solved set. -/
theorem C7_category_restricts_output_only_witness :
    ("p1" ∈ (["p1"] : List String)) ↔ ∃ p, p ∈ db7.problems ∧ p.pid = "p1" ∧
      p.disabled = false ∧ catMatch (some "forensics") p = true ∧
      is_problem_unlocked db7 p [] = true :=
  C7_category_restricts_output_only "t1" (some "forensics") db7 ["p1"] db7 []
    (by decide) (by decide) "p1"

lemma gid_committed_pure (f : Nat) (pid tid : String) (db : DB) (inst : Instance)
    (h : resolvedInstance db pid tid = some inst) :
    get_instance_data (f + 1) pid tid db = .ok (inst, db) := by
  unfold resolvedInstance at h
  cases hT : get_team db tid with
  | error e => simp only [hT] at h; cases h
  | ok team =>
    simp only [hT] at h
    cases hP : get_problem db pid with
    | error e => simp only [hP] at h; cases h
    | ok problem =>
      simp only [hP] at h
      cases hL : team.instances.lookup pid with
      | none => simp only [hL] at h; cases h
      | some iid =>
        simp only [hL] at h
        show gidStep pid tid (fun d => get_instance_data f pid tid d) db = .ok (inst, db)
        rw [gidStep_committed pid tid _ db team problem iid hT hP hL]
        simp only [h]

lemma grade_problem_pure (f : Nat) (pid key tid : String) (db : DB)
    (h : committedResolution db pid tid = true) :
    grade_problem (f + 1) pid key tid db = .ok (pureGrade db pid tid key, db) := by
  unfold committedResolution at h
  cases hr : resolvedInstance db pid tid with
  | none => rw [hr] at h; simp at h
  | some inst =>
    unfold pureGrade
    rw [hr]
    unfold grade_problem
    rw [gid_committed_pure f pid tid db inst hr]

lemma reevalKeys_pure (f : Nat) (pid : String) (db : DB) :
    ∀ (subs : List Submission) (acc : List (String × Option Bool)),
    (∀ s ∈ subs, committedResolution db pid s.tid = true) →
    reevalKeys (f + 1) pid subs acc db = .ok (pureKeys db pid subs acc, db) := by
  intro subs
  induction subs with
  | nil => intro acc h; rfl
  | cons s rest ih =>
    intro acc h
    unfold reevalKeys pureKeys
    by_cases hk : (acc.lookup s.key).isSome
    · simp only [hk, if_true]
      exact ih acc (fun x hx => h x (List.mem_cons_of_mem s hx))
    · simp only [hk, if_false]
      rw [grade_problem_pure f pid s.key s.tid db (h s (List.mem_cons_self s rest))]
      unfold mkChange
      exact ih _ (fun x hx => h x (List.mem_cons_of_mem s hx))

lemma lookup_none_forall {β : Type} (l : List (String × β)) (k : String)
    (h : l.lookup k = none) : ∀ p ∈ l, p.1 ≠ k := by
  induction l with
  | nil => intro p hp; simp at hp
  | cons a rest ih =>
    obtain ⟨k1, v1⟩ := a
    intro p hp
    simp only [List.lookup] at h
    cases hb : k == k1 with
    | true => rw [hb] at h; cases h
    | false =>
      rw [hb] at h
      cases List.mem_cons.mp hp with
      | inl he =>
        subst he
        intro hc
        have hc2 : k1 = k := hc
        rw [hc2] at hb
        simp at hb
      | inr ht => exact ih h p ht

lemma nodup_append_single {α : Type} (l : List α) (x : α) (h : l.Nodup)
    (hx : x ∉ l) : (l ++ [x]).Nodup := by
  induction l with
  | nil => simp
  | cons a t ih =>
    rw [List.nodup_cons] at h
    have hxt : x ∉ t := fun hc => hx (List.mem_cons_of_mem a hc)
    have hax : a ≠ x := fun hc => hx (hc ▸ List.mem_cons_self a t)
    rw [List.cons_append, List.nodup_cons]
    refine ⟨?_, ih h.2 hxt⟩
    intro hc
    cases List.mem_append.mp hc with
    | inl hl => exact h.1 hl
    | inr hr => exact hax (List.mem_singleton.mp hr)

lemma pureKeys_keys_nodup (db : DB) (pid : String) :
    ∀ (subs : List Submission) (acc : List (String × Option Bool)),
    (acc.map Prod.fst).Nodup → ((pureKeys db pid subs acc).map Prod.fst).Nodup := by
  intro subs
  induction subs with
  | nil => intro acc h; exact h
  | cons s rest ih =>
    intro acc h
    unfold pureKeys
    by_cases hk : (acc.lookup s.key).isSome
    · simp only [hk, if_true]
      exact ih acc h
    · simp only [hk, if_false]
      refine ih _ ?_
      rw [List.map_append]
      refine nodup_append_single _ _ h ?_
      intro hc
      obtain ⟨p, hp, hpk⟩ := List.mem_map.mp hc
      have hnone : acc.lookup s.key = none := by
        cases hl : acc.lookup s.key with
        | none => rfl
        | some v => rw [hl] at hk; simp at hk
      exact lookup_none_forall acc s.key hnone p hp hpk

lemma lookup_of_mem_nodup {β : Type} (l : List (String × β))
    (h : (l.map Prod.fst).Nodup) (k : String) (v : β) (hm : (k, v) ∈ l) :
    l.lookup k = some v := by
  induction l with
  | nil => simp at hm
  | cons a rest ih =>
    obtain ⟨k1, v1⟩ := a
    rw [List.map_cons, List.nodup_cons] at h
    simp only [List.lookup]
    cases List.mem_cons.mp hm with
    | inl he =>
      cases he
      simp
    | inr ht =>
      cases hb : k == k1 with
      | true =>
        exfalso
        have hk : k = k1 := eq_of_beq hb
        subst hk
        exact h.1 (List.mem_map.mpr ⟨(k, v), ht, rfl⟩)
      | false => exact ih h.2 ht

lemma pureKeys_lookup (db : DB) (pid : String) :
    ∀ (subs : List Submission) (acc : List (String × Option Bool)) (k : String),
    (pureKeys db pid subs acc).lookup k =
      match acc.lookup k with
      | some v => some v
      | none => (subs.find? (fun s => s.key == k)).map (fun s => mkChange db pid s) := by
  intro subs
  induction subs with
  | nil =>
    intro acc k
    unfold pureKeys
    cases acc.lookup k <;> rfl
  | cons s rest ih =>
    intro acc k
    unfold pureKeys
    by_cases hk : (acc.lookup s.key).isSome
    · simp only [hk, if_true]
      rw [ih acc k]
      cases ha : acc.lookup k with
      | some v => rfl
      | none =>
        have hne : (s.key == k) = false := by
          cases hb : s.key == k with
          | false => rfl
          | true =>
            have he : s.key = k := eq_of_beq hb
            rw [he] at hk
            rw [ha] at hk
            simp at hk
        simp only [List.find?_cons, hne]
    · simp only [hk, Bool.false_eq_true, if_false]
      rw [ih _ k, lookup_append]
      cases ha : acc.lookup k with
      | some v => rfl
      | none =>
        simp only [List.find?_cons]
        cases hb : s.key == k with
        | true =>
          have he : s.key = k := eq_of_beq hb
          have hkb : (k == s.key) = true := by rw [he]; simp
          simp only [List.lookup, hkb]
          rfl
        | false =>
          have hne : k ≠ s.key := by
            intro hc
            rw [hc] at hb
            simp at hb
          have hkb : (k == s.key) = false := beq_false_of_ne hne
          simp only [List.lookup, hkb]

lemma applyKeyChanges_eq_map :
    ∀ (changes : List (String × Option Bool)) (subs : List Submission),
      applyKeyChanges changes subs = subs.map (applyChanges changes) := by
  intro changes
  induction changes with
  | nil =>
    intro subs
    show subs = subs.map id
    rw [List.map_id]
  | cons c rest ih =>
    intro subs
    obtain ⟨k, copt⟩ := c
    cases copt with
    | none =>
      show applyKeyChanges rest subs = subs.map (applyChanges ((k, none) :: rest))
      exact ih subs
    | some b =>
      show applyKeyChanges rest
          (subs.map (fun s => if s.key == k then { s with correct := b } else s)) =
        subs.map (applyChanges ((k, some b) :: rest))
      rw [ih, List.map_map]
      rfl

lemma applyChanges_shape (changes : List (String × Option Bool)) :
    ∀ s : Submission, ∃ b, applyChanges changes s = { s with correct := b } := by
  induction changes with
  | nil => intro s; exact ⟨s.correct, rfl⟩
  | cons c rest ih =>
    intro s
    obtain ⟨k, copt⟩ := c
    cases copt with
    | none => exact ih s
    | some b0 =>
      by_cases hk : (s.key == k) = true
      · obtain ⟨b, hb⟩ := ih { s with correct := b0 }
        refine ⟨b, ?_⟩
        show applyChanges rest (if s.key == k then { s with correct := b0 } else s) =
          { s with correct := b }
        rw [if_pos hk, hb]
      · obtain ⟨b, hb⟩ := ih s
        refine ⟨b, ?_⟩
        show applyChanges rest (if s.key == k then { s with correct := b0 } else s) =
          { s with correct := b }
        rw [if_neg hk, hb]

lemma applyChanges_key (changes : List (String × Option Bool)) (s : Submission) :
    (applyChanges changes s).key = s.key := by
  obtain ⟨b, hb⟩ := applyChanges_shape changes s
  rw [hb]

lemma applyChanges_tid (changes : List (String × Option Bool)) (s : Submission) :
    (applyChanges changes s).tid = s.tid := by
  obtain ⟨b, hb⟩ := applyChanges_shape changes s
  rw [hb]

lemma applyChanges_not_mem :
    ∀ (changes : List (String × Option Bool)) (s : Submission),
      (∀ c ∈ changes, c.1 ≠ s.key) → applyChanges changes s = s := by
  intro changes
  induction changes with
  | nil => intro s _; rfl
  | cons c rest ih =>
    intro s h
    obtain ⟨k, copt⟩ := c
    cases copt with
    | none => exact ih s (fun c hc => h c (List.mem_cons_of_mem _ hc))
    | some b =>
      have hne : ¬ ((s.key == k) = true) := by
        intro hb
        exact h (k, some b) (List.mem_cons_self _ _) (eq_of_beq hb).symm
      show applyChanges rest (if s.key == k then { s with correct := b } else s) = s
      rw [if_neg hne]
      exact ih s (fun c hc => h c (List.mem_cons_of_mem _ hc))

lemma applyChanges_correct_eq :
    ∀ (changes : List (String × Option Bool)), (changes.map Prod.fst).Nodup →
    ∀ (s : Submission),
    applyChanges changes s =
      match changes.lookup s.key with
      | some (some b) => { s with correct := b }
      | _ => s := by
  intro changes
  induction changes with
  | nil => intro _ s; rfl
  | cons c rest ih =>
    intro hnd s
    obtain ⟨k, copt⟩ := c
    rw [List.map_cons, List.nodup_cons] at hnd
    simp only [List.lookup]
    cases hb : s.key == k with
    | true =>
      have hks : s.key = k := eq_of_beq hb
      have hmem0 : ∀ c ∈ rest, c.1 ≠ s.key := by
        intro c hc hceq
        exact hnd.1 (List.mem_map.mpr ⟨c, hc, by rw [hceq, hks]⟩)
      cases copt with
      | some b0 =>
        show applyChanges rest (if s.key == k then { s with correct := b0 } else s) = _
        rw [if_pos hb]
        rw [applyChanges_not_mem rest { s with correct := b0 } hmem0]
      | none =>
        show applyChanges rest s = _
        rw [applyChanges_not_mem rest s hmem0]
    | false =>
      cases copt with
      | some b0 =>
        have hne : ¬ ((s.key == k) = true) := by rw [hb]; simp
        show applyChanges rest (if s.key == k then { s with correct := b0 } else s) = _
        rw [if_neg hne]
        exact ih hnd.2 s
      | none =>
        show applyChanges rest s = _
        exact ih hnd.2 s

lemma applyKeyChanges_none :
    ∀ (changes : List (String × Option Bool)) (subs : List Submission),
      (∀ c ∈ changes, c.2 = none) → applyKeyChanges changes subs = subs := by
  intro changes
  induction changes with
  | nil => intro subs _; rfl
  | cons c rest ih =>
    intro subs h
    obtain ⟨k, copt⟩ := c
    have hc : copt = none := h (k, copt) (List.mem_cons_self _ _)
    subst hc
    show applyKeyChanges rest subs = subs
    exact ih subs (fun c hcm => h c (List.mem_cons_of_mem _ hcm))

lemma applyKeyChanges_flip (changes : List (String × Option Bool))
    (subs : List Submission) (k : String) (b : Bool)
    (hnd : (changes.map Prod.fst).Nodup) (hl : changes.lookup k = some (some b)) :
    ∀ s ∈ applyKeyChanges changes subs, s.key = k → s.correct = b := by
  rw [applyKeyChanges_eq_map]
  intro s2 hs2 hk
  obtain ⟨s, hs, hmap⟩ := List.mem_map.mp hs2
  subst hmap
  have hkey : s.key = k := by rw [← applyChanges_key changes s]; exact hk
  rw [applyChanges_correct_eq changes hnd s, hkey, hl]

lemma filter_map_comm {α : Type} (f : α → α) (p : α → Bool)
    (hf : ∀ a, p (f a) = p a) :
    ∀ l : List α, (l.map f).filter p = (l.filter p).map f := by
  intro l
  induction l with
  | nil => rfl
  | cons a t ih =>
    simp only [List.map_cons, List.filter_cons, hf a]
    cases hp : p a with
    | true => simp only [if_true, List.map_cons, ih]
    | false => simp only [Bool.false_eq_true, if_false, ih]

lemma subMatch_applyChanges (pid : String) (changes : List (String × Option Bool))
    (s : Submission) :
    subMatch (some pid) none none none none (applyChanges changes s) =
      subMatch (some pid) none none none none s := by
  obtain ⟨b, hb⟩ := applyChanges_shape changes s
  rw [hb]
  rfl

lemma pureKeys_after_apply_none (db db1 : DB) (pid : String)
    (hg : ∀ t k, pureGrade db1 pid t k = pureGrade db pid t k)
    (subs : List Submission) :
    ∀ kc ∈ pureKeys db1 pid (applyKeyChanges (pureKeys db pid subs []) subs) [],
      kc.2 = none := by
  intro kc hmem
  obtain ⟨k, c⟩ := kc
  show c = none
  have hnd1 : ((pureKeys db pid subs []).map Prod.fst).Nodup :=
    pureKeys_keys_nodup db pid subs [] (by simp)
  have hnd2 : ((pureKeys db1 pid (applyKeyChanges (pureKeys db pid subs []) subs) []).map
      Prod.fst).Nodup :=
    pureKeys_keys_nodup db1 pid _ [] (by simp)
  have hlk := lookup_of_mem_nodup _ hnd2 k c hmem
  rw [pureKeys_lookup db1 pid _ [] k] at hlk
  have hlk2 : ((applyKeyChanges (pureKeys db pid subs []) subs).find?
      (fun s => s.key == k)).map (fun s => mkChange db1 pid s) = some c := hlk
  have hfk : ∀ s : Submission,
      ((applyChanges (pureKeys db pid subs []) s).key == k) = (s.key == k) := by
    intro s
    rw [applyChanges_key]
  rw [applyKeyChanges_eq_map,
    find?_map_pred (applyChanges (pureKeys db pid subs [])) (fun s => s.key == k) hfk subs]
    at hlk2
  cases hf : subs.find? (fun s => s.key == k) with
  | none =>
    rw [hf] at hlk2
    cases hlk2
  | some s1 =>
    rw [hf] at hlk2
    have hc : c = mkChange db1 pid (applyChanges (pureKeys db pid subs []) s1) := by
      have h2 : some (mkChange db1 pid (applyChanges (pureKeys db pid subs []) s1)) =
          some c := hlk2
      injection h2 with h3
      exact h3.symm
    have hkey1 : s1.key = k := by
      have hb := List.find?_some hf
      simpa using hb
    have hK1 : (pureKeys db pid subs []).lookup s1.key = some (mkChange db pid s1) := by
      rw [pureKeys_lookup db pid subs [] s1.key]
      show (subs.find? (fun s => s.key == s1.key)).map (fun s => mkChange db pid s) =
        some (mkChange db pid s1)
      rw [hkey1, hf]
      rfl
    have hs2 := applyChanges_correct_eq (pureKeys db pid subs []) hnd1 s1
    rw [hK1] at hs2
    rw [hc]
    cases hgv : pureGrade db pid s1.tid s1.key with
    | false =>
      cases hsc : s1.correct with
      | false =>
        have hmk : mkChange db pid s1 = none := by
          unfold mkChange
          rw [hgv, hsc]
          rfl
        rw [hmk] at hs2
        rw [hs2]
        unfold mkChange
        rw [hg s1.tid s1.key, hgv, hsc]
        rfl
      | true =>
        have hmk : mkChange db pid s1 = some false := by
          unfold mkChange
          rw [hgv, hsc]
          rfl
        rw [hmk] at hs2
        rw [hs2]
        unfold mkChange
        show (if (pureGrade db1 pid s1.tid s1.key != false) = true
          then some (pureGrade db1 pid s1.tid s1.key) else none) = none
        rw [hg s1.tid s1.key, hgv]
        rfl
    | true =>
      cases hsc : s1.correct with
      | false =>
        have hmk : mkChange db pid s1 = some true := by
          unfold mkChange
          rw [hgv, hsc]
          rfl
        rw [hmk] at hs2
        rw [hs2]
        unfold mkChange
        show (if (pureGrade db1 pid s1.tid s1.key != true) = true
          then some (pureGrade db1 pid s1.tid s1.key) else none) = none
        rw [hg s1.tid s1.key, hgv]
        rfl
      | true =>
        have hmk : mkChange db pid s1 = none := by
          unfold mkChange
          rw [hgv, hsc]
          rfl
        rw [hmk] at hs2
        rw [hs2]
        unfold mkChange
        rw [hg s1.tid s1.key, hgv, hsc]
        rfl

/-- C8: reevaluation round trip.  For a problem whose submissions all resolve
to an already committed instance (so grading is a pure read), if every ledger
entry for the pid with the target key is recorded correct while the current
flag regrades that key as incorrect (the flag changed from F1 to F2 and the
key no longer contains it), then one run of
`reevaluate_submissions_for_problem` flips every entry bearing that key to
incorrect, and a second run returns the state unchanged. -/
theorem C8_reevaluate_flip_then_idempotent (db : DB) (pid K0 : String) (f : Nat)
    (P : Problem) (hP : get_problem db pid = .ok P)
    (hres : ∀ s ∈ get_submissions db (some pid) none none none none,
      committedResolution db pid s.tid = true)
    (hmem : ∃ s0 ∈ get_submissions db (some pid) none none none none, s0.key = K0)
    (hcorr : ∀ s ∈ get_submissions db (some pid) none none none none,
      s.key = K0 → s.correct = true)
    (hgr : ∀ s ∈ get_submissions db (some pid) none none none none,
      s.key = K0 → pureGrade db pid s.tid K0 = false) :
    ∃ db1, reevaluate_submissions_for_problem (f + 1) pid db = .ok db1 ∧
      (∀ s ∈ db1.submissions, s.key = K0 → s.correct = false) ∧
      reevaluate_submissions_for_problem (f + 1) pid db1 = .ok db1 := by
  set K1 := pureKeys db pid (get_submissions db (some pid) none none none none) [] with hK1def
  refine ⟨{ db with submissions := applyKeyChanges K1 db.submissions }, ?_, ?_, ?_⟩
  · unfold reevaluate_submissions_for_problem
    rw [hP,
      reevalKeys_pure f pid db (get_submissions db (some pid) none none none none) [] hres]
  · have hnd1 : (K1.map Prod.fst).Nodup := pureKeys_keys_nodup db pid _ [] (by simp)
    obtain ⟨s0, hs0, hs0k⟩ := hmem
    obtain ⟨s1, hf1⟩ := find?_isSome_of_mem (fun s => s.key == K0)
      (get_submissions db (some pid) none none none none) s0 hs0
      (by show (s0.key == K0) = true; rw [hs0k]; simp)
    have hk1 : s1.key = K0 := by
      have hb := List.find?_some hf1
      simpa using hb
    have hs1mem : s1 ∈ get_submissions db (some pid) none none none none :=
      List.mem_of_find?_eq_some hf1
    have hK1lk : K1.lookup K0 = some (some false) := by
      rw [hK1def, pureKeys_lookup db pid _ [] K0]
      show ((get_submissions db (some pid) none none none none).find?
        (fun s => s.key == K0)).map (fun s => mkChange db pid s) = some (some false)
      rw [hf1]
      show some (mkChange db pid s1) = some (some false)
      unfold mkChange
      rw [hk1, hgr s1 hs1mem hk1, hcorr s1 hs1mem hk1]
      rfl
    intro s hs hsk
    exact applyKeyChanges_flip K1 db.submissions K0 false hnd1 hK1lk s hs hsk
  · set db1 : DB := { db with submissions := applyKeyChanges K1 db.submissions } with hdb1
    have hg1 : ∀ t k, pureGrade db1 pid t k = pureGrade db pid t k := fun t k => rfl
    have hinv : ∀ s0 : Submission,
        subMatch (some pid) none none none none (applyChanges K1 s0) =
          subMatch (some pid) none none none none s0 :=
      subMatch_applyChanges pid K1
    have hsubs2 : get_submissions db1 (some pid) none none none none =
        applyKeyChanges K1 (get_submissions db (some pid) none none none none) := by
      show filterSubs (applyKeyChanges K1 db.submissions) (some pid) none none none none = _
      unfold filterSubs
      rw [applyKeyChanges_eq_map, filter_map_comm _ _ hinv, ← applyKeyChanges_eq_map]
      rfl
    have hres2 : ∀ s ∈ get_submissions db1 (some pid) none none none none,
        committedResolution db1 pid s.tid = true := by
      intro s hs
      rw [hsubs2, applyKeyChanges_eq_map] at hs
      obtain ⟨s2, hs2m, hmap⟩ := List.mem_map.mp hs
      rw [← hmap, applyChanges_tid]
      exact hres s2 hs2m
    have hK2none : ∀ kc ∈ pureKeys db1 pid
        (get_submissions db1 (some pid) none none none none) [], kc.2 = none := by
      rw [hsubs2]
      exact pureKeys_after_apply_none db db1 pid hg1
        (get_submissions db (some pid) none none none none)
    unfold reevaluate_submissions_for_problem
    rw [show get_problem db1 pid = .ok P from hP]
    rw [reevalKeys_pure f pid db1 (get_submissions db1 (some pid) none none none none) [] hres2]
    have hfold : applyKeyChanges (pureKeys db1 pid (get_submissions db1 (some pid) none none none none) []) db1.submissions = db1.submissions := applyKeyChanges_none _ _ hK2none
    show Except.ok ({ db1 with submissions := applyKeyChanges (pureKeys db1 pid (get_submissions db1 (some pid) none none none none) []) db1.submissions } : DB) = Except.ok db1
    rw [hfold]

/-- C8 witness: the db8 round trip, where the single submission was recorded
correct against F1 and the flag is now F2. -/
theorem C8_reevaluate_flip_then_idempotent_witness :
    ∃ db1, reevaluate_submissions_for_problem 2 "p1" db8 = .ok db1 ∧
      (∀ s ∈ db1.submissions, s.key = "F1-x" → s.correct = false) ∧
      reevaluate_submissions_for_problem 2 "p1" db1 = .ok db1 :=
  C8_reevaluate_flip_then_idempotent db8 "p1" "F1-x" 1 p8 (by decide) (by decide)
    ⟨s8, by decide, rfl⟩ (by decide) (by decide)

end PicoCTF
